import Mathlib

/-!
Verification of the `gym_bridge` card-play environments.

This file gives a shallow embedding of the repository's core game logic:
`CardList` operations (`src/gym_bridge/utils/card_list.py`) and the two
environments `BridgeEnv` (`src/gym_bridge/envs/bridge_env.py`) and
`BridgeSimultaneousActionsEnv`
(`src/gym_bridge/envs/bridge_simultaneous_actions_env.py`), in the
`integer` action/observation encoding unless stated otherwise.  Cards are
integers in `[0, 52)` with `suit = card % 4` and `rank = card / 4`; hands,
tables and trick history are lists of such integers; Python dictionaries
keyed by the four seats become functions out of `Player`; Python `None`
becomes `Option`; exceptions raised by a code path become `Option`/`Except`
error results carrying the exception's name.
-/

/-- The four seats, in the source's `players = ['N', 'E', 'S', 'W']` order. -/
inductive Player : Type
  | N | E | S | W
deriving DecidableEq, Repr, Fintype

/-- `self.players` of both environments. -/
def players : List Player := [Player.N, Player.E, Player.S, Player.W]

/-- `_get_next_player`: the next seat in clockwise order
(`players[(players.index(player) + 1) % 4]`). -/
def next_player : Player → Player
  | Player.N => Player.E
  | Player.E => Player.S
  | Player.S => Player.W
  | Player.W => Player.N

/-- `CardList.one_card_power(current_suit, trump)` for a one-card list whose
card is `card` (`card = self[0]`): `+200` when trump is set and the card is
of the trump suit, otherwise (`elif`) `+100` when the card's suit equals
`current_suit`.  `current_suit` is kept as the raw Python value (`None` or
an integer), because the final-trick lookahead in `_get_rewards` passes a
whole card as `current_suit`. -/
def one_card_power (card : Nat) (current_suit : Option Nat) (trump : Option Nat) : Nat :=
  match trump with
  | some t =>
      if card % 4 = t then card + 200
      else if some (card % 4) = current_suit then card + 100
      else card
  | none => if some (card % 4) = current_suit then card + 100 else card

/-- `np.argmax` on a list of naturals: index of the first occurrence of the
maximum value. -/
def np_argmax (l : List Nat) : Nat := l.indexOf (l.foldl max 0)

/-- `_get_trick_winner` (identical in both environments): seat at the
`np.argmax` of the card powers of the four one-card table piles, taken in
`N, E, S, W` order.  Each pile holds exactly one card when this runs
(`assert self.n_cards_on_table == 4`); `headD 0` models `self[0]`. -/
def get_trick_winner (table : Player → List Nat) (current_suit : Option Nat)
    (trump : Option Nat) : Player :=
  players.getD (np_argmax (players.map
    (fun p => one_card_power ((table p).headD 0) current_suit trump))) Player.N

/-- Modelled from the claim's wording, as the refinement reference for
trick resolution: card value, plus 100 if the card's suit equals the led
suit, plus 200 if trump is not no-trump and the card's suit equals trump. -/
def spec_card_power (card : Nat) (led : Nat) (trump : Option Nat) : Nat :=
  card + (if card % 4 = led then 100 else 0) +
    (match trump with
     | some t => if card % 4 = t then 200 else 0
     | none => 0)

section ArgmaxLemmas

lemma np_argmax_four_zero (a b c d : Nat) (h1 : b < a) (h2 : c < a) (h3 : d < a) :
    np_argmax [a, b, c, d] = 0 := by
  have hm : [a, b, c, d].foldl max 0 = a := by
    simp only [List.foldl]
    omega
  rw [np_argmax, hm]
  simp [List.indexOf_cons_self]

lemma np_argmax_four_one (a b c d : Nat) (h1 : a < b) (h2 : c < b) (h3 : d < b) :
    np_argmax [a, b, c, d] = 1 := by
  have hm : [a, b, c, d].foldl max 0 = b := by
    simp only [List.foldl]
    omega
  rw [np_argmax, hm]
  rw [List.indexOf_cons_ne _ (by omega), List.indexOf_cons_self]

lemma np_argmax_four_two (a b c d : Nat) (h1 : a < c) (h2 : b < c) (h3 : d < c) :
    np_argmax [a, b, c, d] = 2 := by
  have hm : [a, b, c, d].foldl max 0 = c := by
    simp only [List.foldl]
    omega
  rw [np_argmax, hm]
  rw [List.indexOf_cons_ne _ (by omega), List.indexOf_cons_ne _ (by omega),
    List.indexOf_cons_self]

lemma np_argmax_four_three (a b c d : Nat) (h1 : a < d) (h2 : b < d) (h3 : c < d) :
    np_argmax [a, b, c, d] = 3 := by
  have hm : [a, b, c, d].foldl max 0 = d := by
    simp only [List.foldl]
    omega
  rw [np_argmax, hm]
  rw [List.indexOf_cons_ne _ (by omega), List.indexOf_cons_ne _ (by omega),
    List.indexOf_cons_ne _ (by omega), List.indexOf_cons_self]

end ArgmaxLemmas

/-- If one seat's table card has strictly greater power than the other
three, `_get_trick_winner` returns that seat. -/
lemma get_trick_winner_eq_of_strict_max (table : Player → List Nat) (c : Player → Nat)
    (htab : ∀ p, table p = [c p]) (cs trump : Option Nat) (W : Player)
    (h : ∀ p, p ≠ W → one_card_power (c p) cs trump < one_card_power (c W) cs trump) :
    get_trick_winner table cs trump = W := by
  have hmap : players.map (fun p => one_card_power ((table p).headD 0) cs trump) =
      [one_card_power (c Player.N) cs trump, one_card_power (c Player.E) cs trump,
       one_card_power (c Player.S) cs trump, one_card_power (c Player.W) cs trump] := by
    simp [players, htab]
  cases W with
  | N =>
    rw [get_trick_winner, hmap,
      np_argmax_four_zero _ _ _ _ (h _ (by decide)) (h _ (by decide)) (h _ (by decide))]
    rfl
  | E =>
    rw [get_trick_winner, hmap,
      np_argmax_four_one _ _ _ _ (h _ (by decide)) (h _ (by decide)) (h _ (by decide))]
    rfl
  | S =>
    rw [get_trick_winner, hmap,
      np_argmax_four_two _ _ _ _ (h _ (by decide)) (h _ (by decide)) (h _ (by decide))]
    rfl
  | W =>
    rw [get_trick_winner, hmap,
      np_argmax_four_three _ _ _ _ (h _ (by decide)) (h _ (by decide)) (h _ (by decide))]
    rfl

/-- The power transform is injective on a trick's (distinct, in-range)
cards: the bonuses are multiples of 100 while card values stay below 52. -/
lemma one_card_power_inj (c : Player → Nat) (hlt : ∀ p, c p < 52)
    (hinj : ∀ p q, c p = c q → p = q) (cs trump : Option Nat) :
    ∀ p q, one_card_power (c p) cs trump = one_card_power (c q) cs trump → p = q := by
  intro p q h
  have hp := hlt p
  have hq := hlt q
  apply hinj
  rcases trump with _ | t <;> simp only [one_card_power] at h <;> split_ifs at h <;> omega

/-- When some trump-suit card is on the table, the seat holding the
largest trump card strictly beats every other seat (for the source's
power), and weakly dominates for the claim's additive power as well. -/
lemma trump_branch_max (c : Player → Nat) (hlt : ∀ p, c p < 52)
    (hinj : ∀ p q, c p = c q → p = q) (led t : Nat)
    (hex : ∃ p, c p % 4 = t) :
    ∃ w, c w % 4 = t ∧ (∀ q, c q % 4 = t → c q ≤ c w) ∧
      (∀ p, p ≠ w →
        one_card_power (c p) (some led) (some t) < one_card_power (c w) (some led) (some t)) ∧
      (∀ p, spec_card_power (c p) led (some t) ≤ spec_card_power (c w) led (some t)) := by
  obtain ⟨p0, hp0⟩ := hex
  obtain ⟨w, hwmem, hwmax⟩ :=
    (Finset.univ.filter fun p => c p % 4 = t).exists_max_image c ⟨p0, by simp [hp0]⟩
  have hwt : c w % 4 = t := by simpa using hwmem
  have hmax : ∀ q, c q % 4 = t → c q ≤ c w := fun q hq => hwmax q (by simp [hq])
  have hw200 : one_card_power (c w) (some led) (some t) = c w + 200 := by
    simp [one_card_power, hwt]
  refine ⟨w, hwt, hmax, ?_, ?_⟩
  · intro p hpw
    by_cases hp : c p % 4 = t
    · have hp200 : one_card_power (c p) (some led) (some t) = c p + 200 := by
        simp [one_card_power, hp]
      have hle : c p ≤ c w := hmax p hp
      have hne : c p ≠ c w := fun hh => hpw (hinj _ _ hh)
      omega
    · have h1 := hlt p
      have hple : one_card_power (c p) (some led) (some t) ≤ c p + 100 := by
        simp only [one_card_power, Option.some.injEq, if_neg hp]
        split_ifs <;> omega
      omega
  · intro p
    have e2 : spec_card_power (c w) led (some t) =
        c w + (if t = led then 100 else 0) + 200 := by
      simp only [spec_card_power]
      rw [hwt, if_pos rfl]
    by_cases hp : c p % 4 = t
    · have hle : c p ≤ c w := hmax p hp
      have e1 : spec_card_power (c p) led (some t) =
          c p + (if t = led then 100 else 0) + 200 := by
        simp only [spec_card_power]
        rw [hp, if_pos rfl]
      rw [e1, e2]
      split_ifs <;> omega
    · have h1 := hlt p
      have e1 : spec_card_power (c p) led (some t) ≤ c p + 100 := by
        simp only [spec_card_power]
        rw [if_neg hp]
        split_ifs <;> omega
      rw [e2] at *
      split_ifs at * <;> omega

/-- When no trump-suit card is on the table (or there is no trump), the
seat holding the largest led-suit card strictly beats every other seat,
and weakly dominates for the claim's additive power. -/
lemma led_branch_max (c : Player → Nat) (hlt : ∀ p, c p < 52)
    (hinj : ∀ p q, c p = c q → p = q) (led : Nat) (trump : Option Nat)
    (hnotrump : ∀ t, trump = some t → ∀ p, c p % 4 ≠ t)
    (hex : ∃ p, c p % 4 = led) :
    ∃ w, c w % 4 = led ∧ (∀ q, c q % 4 = led → c q ≤ c w) ∧
      (∀ p, p ≠ w →
        one_card_power (c p) (some led) trump < one_card_power (c w) (some led) trump) ∧
      (∀ p, spec_card_power (c p) led trump ≤ spec_card_power (c w) led trump) := by
  obtain ⟨p0, hp0⟩ := hex
  obtain ⟨w, hwmem, hwmax⟩ :=
    (Finset.univ.filter fun p => c p % 4 = led).exists_max_image c ⟨p0, by simp [hp0]⟩
  have hwled : c w % 4 = led := by simpa using hwmem
  have hmax : ∀ q, c q % 4 = led → c q ≤ c w := fun q hq => hwmax q (by simp [hq])
  have hpow : ∀ p, one_card_power (c p) (some led) trump =
      c p + (if c p % 4 = led then 100 else 0) := by
    intro p
    rcases ht : trump with _ | t
    · simp only [one_card_power, Option.some.injEq]
      split_ifs <;> omega
    · have hpt : ¬ c p % 4 = t := hnotrump t ht p
      simp only [one_card_power, Option.some.injEq, if_neg hpt]
      split_ifs <;> omega
  have hspec : ∀ p, spec_card_power (c p) led trump =
      c p + (if c p % 4 = led then 100 else 0) := by
    intro p
    rcases ht : trump with _ | t
    · simp [spec_card_power]
    · have hpt : ¬ c p % 4 = t := hnotrump t ht p
      simp [spec_card_power, hpt]
  refine ⟨w, hwled, hmax, ?_, ?_⟩
  · intro p hpw
    rw [hpow, hpow, hwled, if_pos rfl]
    by_cases hp : c p % 4 = led
    · have hle : c p ≤ c w := hmax p hp
      have hne : c p ≠ c w := fun hh => hpw (hinj _ _ hh)
      rw [if_pos hp]
      omega
    · have h1 := hlt p
      rw [if_neg hp]
      omega
  · intro p
    rw [hspec, hspec, hwled, if_pos rfl]
    by_cases hp : c p % 4 = led
    · have hle : c p ≤ c w := hmax p hp
      rw [if_pos hp]
      omega
    · have h1 := hlt p
      rw [if_neg hp]
      omega

/-- C1.  For every completed trick (one card per seat), the seat returned
by `_get_trick_winner` holds the maximum-power card both for the source's
power and for the claim's additive power; the power transform is injective
within the trick, so ties are impossible; a trump card strictly beats any
non-trump card; and with trump set the winner is the highest-rank trump if
any trump was played, otherwise the highest rank in the led suit. -/
theorem trick_winner_spec (table : Player → List Nat) (c : Player → Nat)
    (htab : ∀ p, table p = [c p]) (hlt : ∀ p, c p < 52)
    (hinj : ∀ p q, c p = c q → p = q)
    (led : Nat) (hledex : ∃ p, c p % 4 = led) (trump : Option Nat)
    (htr : ∀ t, trump = some t → (∃ p, c p % 4 = t) ∨ (∀ p, c p % 4 ≠ t)) :
    (∀ p, spec_card_power (c p) led trump ≤
        spec_card_power (c (get_trick_winner table (some led) trump)) led trump) ∧
    (∀ p, one_card_power (c p) (some led) trump ≤
        one_card_power (c (get_trick_winner table (some led) trump)) (some led) trump) ∧
    (∀ p q, one_card_power (c p) (some led) trump =
        one_card_power (c q) (some led) trump → p = q) ∧
    (∀ t p q, trump = some t → c p % 4 = t → c q % 4 ≠ t →
        one_card_power (c q) (some led) trump < one_card_power (c p) (some led) trump) ∧
    (∀ t, trump = some t →
      ((∃ p, c p % 4 = t) →
          c (get_trick_winner table (some led) trump) % 4 = t ∧
          ∀ q, c q % 4 = t → c q / 4 ≤ c (get_trick_winner table (some led) trump) / 4) ∧
      ((∀ p, c p % 4 ≠ t) →
          c (get_trick_winner table (some led) trump) % 4 = led ∧
          ∀ q, c q % 4 = led → c q / 4 ≤ c (get_trick_winner table (some led) trump) / 4)) := by
  have hbeats : ∀ t p q, trump = some t → c p % 4 = t → c q % 4 ≠ t →
      one_card_power (c q) (some led) trump < one_card_power (c p) (some led) trump := by
    intro t p q ht hp hq
    subst ht
    have h1 := hlt q
    simp only [one_card_power, hp, if_pos rfl, if_neg hq]
    split_ifs <;> omega
  by_cases hcase : ∃ t, trump = some t ∧ ∃ p, c p % 4 = t
  · obtain ⟨t, ht, hex⟩ := hcase
    subst ht
    obtain ⟨w, hwt, hwmax, hwstrict, hwspec⟩ := trump_branch_max c hlt hinj led t hex
    have hwin : get_trick_winner table (some led) (some t) = w :=
      get_trick_winner_eq_of_strict_max table c htab (some led) (some t) w hwstrict
    rw [hwin]
    refine ⟨hwspec, ?_, one_card_power_inj c hlt hinj _ _, hbeats, ?_⟩
    · intro p
      by_cases hpw : p = w
      · subst hpw; exact le_refl _
      · exact le_of_lt (hwstrict p hpw)
    · intro t' ht'
      obtain rfl : t = t' := Option.some.inj ht'
      refine ⟨fun _ => ⟨hwt, fun q hq => Nat.div_le_div_right (hwmax q hq)⟩, fun hno => ?_⟩
      obtain ⟨p, hp⟩ := hex
      exact absurd hp (hno p)
  · have hnotrump : ∀ t, trump = some t → ∀ p, c p % 4 ≠ t := by
      intro t ht p hp
      exact hcase ⟨t, ht, p, hp⟩
    obtain ⟨w, hwled, hwmax, hwstrict, hwspec⟩ :=
      led_branch_max c hlt hinj led trump hnotrump hledex
    have hwin : get_trick_winner table (some led) trump = w :=
      get_trick_winner_eq_of_strict_max table c htab (some led) trump w hwstrict
    rw [hwin]
    refine ⟨hwspec, ?_, one_card_power_inj c hlt hinj _ _, hbeats, ?_⟩
    · intro p
      by_cases hpw : p = w
      · subst hpw; exact le_refl _
      · exact le_of_lt (hwstrict p hpw)
    · intro t ht
      refine ⟨fun hex => ?_, fun _ => ⟨hwled, fun q hq => Nat.div_le_div_right (hwmax q hq)⟩⟩
      obtain ⟨p, hp⟩ := hex
      exact absurd hp (hnotrump t ht p)

/-- Witness for C1, at the spec's own example: led suit hearts (2), trump
spades (3), cards N: 2♠ (card 3), E: A♥ (card 50), S: 3♦ (card 5),
W: 7♥ (card 22); the winner's card is the trump card. -/
theorem trick_winner_spec_witness :
    (fun p => match p with
      | Player.N => 3 | Player.E => 50 | Player.S => 5 | Player.W => 22 : Player → Nat)
      (get_trick_winner
        (fun p => [(fun p => match p with
          | Player.N => 3 | Player.E => 50 | Player.S => 5 | Player.W => 22 : Player → Nat) p])
        (some 2) (some 3)) % 4 = 3 :=
  (((trick_winner_spec
      (fun p => [(fun p => match p with
        | Player.N => 3 | Player.E => 50 | Player.S => 5 | Player.W => 22 : Player → Nat) p])
      (fun p => match p with
        | Player.N => 3 | Player.E => 50 | Player.S => 5 | Player.W => 22)
      (fun _ => rfl) (by decide) (by decide) 2 ⟨Player.E, by decide⟩ (some 3)
      (by intro t ht; injection ht with h; subst h; exact Or.inl ⟨Player.N, by decide⟩)).2.2.2.2
    3 rfl).1 ⟨Player.N, by decide⟩).1

/-! ## The environment state

`BridgeEnv.__init__`/`reset` build `self.state` (a dict of hands, table,
played tricks, won-trick counts, active player and current suit) plus the
episode attributes `trump`, `contract_value`, `players_roles` (stored here
by its `declarer` seat, from which the other roles are derived exactly as
`_set_players_roles` does), `n_cards_on_table`, `rewards` and
`tricks_played`.  We flatten all of these into one structure. -/

/-- `reward.modes` handled by `_get_rewards` in both environments. -/
inductive RewardMode : Type
  | win | win_tricks | win_points | play_cards
deriving DecidableEq, Repr

/-- The mutable environment object (state dict and episode attributes). -/
structure Env : Type where
  reward_mode : RewardMode
  trump : Option Nat
  contract_value : Nat
  declarer : Player
  active_player : Player
  hands : Player → List Nat
  table : Player → List Nat
  played_tricks : Nat → Player → List Nat
  won_tricks : Player → Nat
  current_suit : Option Nat
  n_cards_on_table : Nat
  rewards : Player → Int
  tricks_played : Nat

/-- `players_roles['dummy']`: two seats clockwise from the declarer. -/
def dummy_seat (e : Env) : Player := next_player (next_player e.declarer)

/-- `players_roles['defender_1']`: next seat clockwise from the declarer. -/
def defender_1_seat (e : Env) : Player := next_player e.declarer

/-- `players_roles['defender_2']`: three seats clockwise from the declarer. -/
def defender_2_seat (e : Env) : Player := next_player (next_player (next_player e.declarer))

/-- `CardList.get_suit_cards(suit)`: the cards of the given suit. -/
def get_suit_cards (l : List Nat) (suit : Nat) : List Nat :=
  l.filter (fun x => x % 4 = suit)

/-- `BridgeEnv.get_available_actions` in the `integer` action encoding:
the whole hand when no card has been led, otherwise the hand's cards of
the led suit, falling back to the whole hand when there are none. -/
def get_available_actions (e : Env) (p : Player) : List Nat :=
  match e.current_suit with
  | none => e.hands p
  | some s =>
      let available_actions := get_suit_cards (e.hands p) s
      if available_actions.length < 1 then e.hands p else available_actions

/-- Python `action in available_actions` for an integer action against a
card list (the action may be out of range or negative). -/
def int_mem (a : Int) (l : List Nat) : Bool := l.any (fun card => (card : Int) = a)

/-- The card-selection step of `_game_controller`: the proposed action if
it is available, else `random.choice` from the available actions, modelled
by the oracle index `rnd` (reduced mod the list length, so every possible
random choice is covered).  `none` models the `IndexError` that
`random.choice` raises on an empty sequence (possible only once the active
hand is empty).  Returns the chosen card and `action_is_valid`. -/
def choose_card (e : Env) (action : Int) (rnd : Nat) : Option (Nat × Bool) :=
  let available := get_available_actions e e.active_player
  if int_mem action available then some (action.toNat, true)
  else if available.isEmpty then none
  else some (available.getD (rnd % available.length) 0, false)

/-- The card movement common to both `_game_controller`s:
`remove_card` from the active hand (Python `list.remove`, first
occurrence), `add_cards` onto the active seat's table pile, and
`self.n_cards_on_table += 1`. -/
def place_env (e : Env) (card : Nat) : Env :=
  { e with
    hands := Function.update e.hands e.active_player ((e.hands e.active_player).erase card),
    table := Function.update e.table e.active_player (e.table e.active_player ++ [card]),
    n_cards_on_table := e.n_cards_on_table + 1 }

/-- `_clear_table`: pop the (single) card of each seat's table pile into
the history slot `played_tricks[tricks_played]`, reset the card counter
and the led suit.  `remove_card()` with no argument is Python
`list.pop()`, modelled as last element plus `dropLast`; every pile holds
exactly one card whenever this runs. -/
def clear_table (e : Env) : Env :=
  { e with
    played_tricks := fun i p =>
      if i = e.tricks_played then e.played_tricks i p ++ [(e.table p).getLastD 0]
      else e.played_tricks i p,
    table := fun p => (e.table p).dropLast,
    n_cards_on_table := 0,
    current_suit := none }

/-- The final-trick lookahead of `BridgeEnv._get_rewards` (`win`,
`win_tricks` and `win_points` branches): `np.argmax` of
`card.one_card_power(self.state['hands'][trick_winner][0], self.trump)`
over the four whole hands, each holding one card (`self[0]`,
modelled by `headD 0`).  Note that the `current_suit` argument is the
trick winner's remaining card, not a suit. -/
def lookahead_winner (hands : Player → List Nat) (tw : Player) (trump : Option Nat) : Player :=
  players.getD (np_argmax (players.map
    (fun p => one_card_power ((hands p).headD 0) (some ((hands tw).headD 0)) trump))) Player.N

/-- The contract-outcome assignment shared by the `win` and `win_points`
branches: declarer and dummy get 1 and the defenders 0 when
`won_tricks[declarer] + bonus >= contract_value + 6`, else the reverse
(assignments over the previous rewards dict, in source order). -/
def contract_rewards (e : Env) (bonus : Nat) (r : Player → Int) : Player → Int :=
  if e.contract_value + 6 ≤ e.won_tricks e.declarer + bonus then
    Function.update (Function.update (Function.update (Function.update r
      e.declarer 1) (dummy_seat e) 1) (defender_1_seat e) 0) (defender_2_seat e) 0
  else
    Function.update (Function.update (Function.update (Function.update r
      e.declarer 0) (dummy_seat e) 0) (defender_1_seat e) 1) (defender_2_seat e) 1

/-- `BridgeEnv._get_rewards`.  `rewards = deepcopy(self.rewards)` starts
from the previous step's rewards.  In the `win` and `win_points` branches,
when `tricks_played == 12` and `trick_winner` is `None` the source
evaluates `self.state['hands'][None]` and raises `KeyError`, modelled by
`none`; when `trick_winner` is a seat, `players_roles.get('player')` is
`None` (there is no such role key), so the lookahead bonus tests only
equality with the dummy. -/
def get_rewards_single_base (e : Env) (trick_winner : Option Player)
    (chosen_card_is_valid : Bool) : Option (Player → Int) :=
  let rewards := e.rewards
  match e.reward_mode with
    | RewardMode.win =>
        if e.tricks_played = 12 then
          match trick_winner with
          | none => none
          | some tw =>
              let ntw := lookahead_winner e.hands tw e.trump
              let bonus : Nat := if ntw = dummy_seat e then 1 else 0
              some (contract_rewards e bonus rewards)
        else some rewards
    | RewardMode.win_points =>
        if e.tricks_played = 12 then
          match trick_winner with
          | none => none
          | some tw =>
              let ntw := lookahead_winner e.hands tw e.trump
              let bonus : Nat := if ntw = dummy_seat e then 1 else 0
              some (contract_rewards e bonus rewards)
        else some rewards
    | RewardMode.win_tricks =>
        match trick_winner with
        | some tw =>
            let r1 := Function.update (Function.update (Function.update (Function.update rewards
              tw 1) (next_player tw) 0) (next_player (next_player tw)) 1)
              (next_player (next_player (next_player tw))) 0
            if e.tricks_played = 12 then
              let ntw := lookahead_winner e.hands tw e.trump
              let r2 := Function.update r1 ntw (r1 ntw + 1)
              let pp := next_player (next_player ntw)
              some (Function.update r2 pp (r2 pp + 1))
            else some r1
        | none => some rewards
    | RewardMode.play_cards =>
        if chosen_card_is_valid then some (Function.update rewards e.active_player 1)
        else some rewards

/-- The final `if not chosen_card_is_valid` override of
`BridgeEnv._get_rewards`, applied to the mode branch's result. -/
def get_rewards_single (e : Env) (trick_winner : Option Player) (chosen_card_is_valid : Bool) :
    Option (Player → Int) :=
  match get_rewards_single_base e trick_winner chosen_card_is_valid with
  | none => none
  | some r =>
      if chosen_card_is_valid then some r
      else some (Function.update r e.active_player
        (if e.reward_mode = RewardMode.win_points then -1000 else -2))

/-- Setting `current_suit` on the first card of a trick
(`if self.state['current_suit'] is None: ... = card % 4`). -/
def set_current_suit (e1 : Env) (card : Nat) : Env :=
  { e1 with current_suit := if e1.current_suit = none then some (card % 4) else e1.current_suit }

/-- The trick-completion tail of `_game_controller`: clear the table,
count the trick, credit the winner and the winner's partner. -/
def resolve_trick (e1 : Env) : Env :=
  let trick_winner := get_trick_winner e1.table e1.current_suit e1.trump
  let e2 := clear_table e1
  let w1 := Function.update e2.won_tricks trick_winner (e2.won_tricks trick_winner + 1)
  let pp := next_player (next_player trick_winner)
  let w2 := Function.update w1 pp (w1 pp + 1)
  { e2 with tricks_played := e2.tricks_played + 1, won_tricks := w2 }

/-- `BridgeEnv._game_controller`.  Returns the mutated environment plus
`none` on normal completion, or `some exc` naming the exception a code
path raises; when `_get_rewards` raises, the card movements (and trick
clearing) have already happened but `rewards` and `active_player` keep
their old values, exactly as in the source. -/
def game_controller (e : Env) (action : Int) (rnd : Nat) : Env × Option String :=
  match choose_card e action rnd with
  | none => (e, some "IndexError")
  | some (card, action_is_valid) =>
      if (place_env e card).n_cards_on_table < 4 then
        match get_rewards_single (set_current_suit (place_env e card) card) none
            action_is_valid with
        | none => (set_current_suit (place_env e card) card, some "KeyError")
        | some r =>
            ({ (set_current_suit (place_env e card) card) with
                rewards := r,
                active_player := next_player e.active_player }, none)
      else
        match get_rewards_single (resolve_trick (place_env e card))
            (some (get_trick_winner (place_env e card).table (place_env e card).current_suit
              (place_env e card).trump)) action_is_valid with
        | none => (resolve_trick (place_env e card), some "KeyError")
        | some r =>
            ({ (resolve_trick (place_env e card)) with
                rewards := r,
                active_player := get_trick_winner (place_env e card).table
                  (place_env e card).current_suit (place_env e card).trump }, none)

/-- The observation dict of `get_player_observation` in the `integer`
observation encoding. -/
structure Observation : Type where
  player_position : Nat
  dummy_position : Nat
  active_player_position : Nat
  player_hand : List Nat
  dummy_hand : List Nat
  table : Player → List Nat
  played_tricks : Nat → Player → List Nat
  current_suit : Option Nat
  trump : Option Nat
  contract_value : Nat
  won_tricks : Nat

/-- `get_player_observation` (identical in both environments) in the
`integer` observation encoding; the dummy's hand is hidden before the
opening lead. -/
def get_player_observation (e : Env) (p : Player) : Observation :=
  { player_position := players.indexOf p
    dummy_position := players.indexOf (dummy_seat e)
    active_player_position := players.indexOf e.active_player
    player_hand := e.hands p
    dummy_hand :=
      if e.tricks_played = 0 ∧ e.n_cards_on_table = 0 then [] else e.hands (dummy_seat e)
    table := e.table
    played_tricks := e.played_tricks
    current_suit := e.current_suit
    trump := e.trump
    contract_value := e.contract_value
    won_tricks := e.won_tricks p }

/-- `BridgeEnv.step`: run `_game_controller`, then return
`(observation, reward, done, info)` — the observation, the single reward
and the done flag all read for the *new* active player (`info` is an empty
dict and is omitted).  When the controller raises, the exception
propagates and no tuple is returned. -/
def step_single (e : Env) (action : Int) (rnd : Nat) :
    Env × Option (Observation × Int × Bool) × Option String :=
  match game_controller e action rnd with
  | (e1, some exc) => (e1, none, some exc)
  | (e1, none) =>
      (e1, some (get_player_observation e1 e1.active_player,
                 e1.rewards e1.active_player,
                 (e1.hands e1.active_player).isEmpty), none)

/-- Insertion into a list sorted by suit and then by value. -/
def insert_by_suit (x : Nat) : List Nat → List Nat
  | [] => [x]
  | y :: ys =>
      if x % 4 < y % 4 ∨ (x % 4 = y % 4 ∧ x ≤ y) then x :: y :: ys
      else y :: insert_by_suit x ys

/-- `CardList.sort_cards`: `sort()` then stable `sort(key=lambda x: x % 4)`,
i.e. ordering by suit and then by value (an insertion sort computes the
same ordered rearrangement). -/
def sort_cards (l : List Nat) : List Nat := l.foldr insert_by_suit []

lemma insert_by_suit_perm (x : Nat) (l : List Nat) :
    List.Perm (insert_by_suit x l) (x :: l) := by
  induction l with
  | nil => rfl
  | cons y ys ih =>
      rw [insert_by_suit]
      split_ifs
      · rfl
      · exact ((ih.cons y).trans (List.Perm.swap x y ys))

lemma sort_cards_perm (l : List Nat) : List.Perm (sort_cards l) l := by
  induction l with
  | nil => rfl
  | cons y ys ih => exact (insert_by_suit_perm y (sort_cards ys)).trans (ih.cons y)

/-- `_deal_random_cards` given the shuffled deck: consecutive 13-card
slices to N, E, S, W, each sorted. -/
def deal_cards (deck : List Nat) : Player → List Nat
  | Player.N => sort_cards (deck.take 13)
  | Player.E => sort_cards ((deck.drop 13).take 13)
  | Player.S => sort_cards ((deck.drop 26).take 13)
  | Player.W => sort_cards (deck.drop 39)

/-- `BridgeEnv.reset(initial_state=None)` with the shuffled deck and the
random draws (declarer, trump, contract value) made explicit.  The first
active player is `defender_1`; `self.rewards` is the zero dict set up at
construction. -/
def reset_random (rm : RewardMode) (deck : List Nat) (declarer : Player)
    (trump : Option Nat) (contract_value : Nat) : Env :=
  { reward_mode := rm
    trump := trump
    contract_value := contract_value
    declarer := declarer
    active_player := next_player declarer
    hands := deal_cards deck
    table := fun _ => []
    played_tricks := fun _ _ => []
    won_tricks := fun _ => 0
    current_suit := none
    n_cards_on_table := 0
    rewards := fun _ => 0
    tricks_played := 0 }

/-- `if declarer in self.players` of `_set_players_roles`, for a raw seat
identifier. -/
def parse_player (s : String) : Option Player :=
  if s = "N" then some Player.N
  else if s = "E" then some Player.E
  else if s = "S" then some Player.S
  else if s = "W" then some Player.W
  else none

/-- `BridgeEnv.reset(initial_state)` with explicit hands: only the seat
identifier is validated (`_set_players_roles` raises on an unknown seat);
the given hands are installed as they are, with no count, duplicate or
range check anywhere on this path. -/
def reset_with_state (rm : RewardMode) (declarer : String) (hands : Player → List Nat)
    (trump : Option Nat) (contract_value : Nat) : Except String Env :=
  match parse_player declarer with
  | none => Except.error "Exception: Setting players roles failed"
  | some d =>
      Except.ok
        { reward_mode := rm
          trump := trump
          contract_value := contract_value
          declarer := d
          active_player := next_player d
          hands := hands
          table := fun _ => []
          played_tricks := fun _ _ => []
          won_tricks := fun _ => 0
          current_suit := none
          n_cards_on_table := 0
          rewards := fun _ => 0
          tricks_played := 0 }

/-! ## The simultaneous-actions environment

`BridgeSimultaneousActionsEnv` shares the state shape (we reuse `Env`) but
takes a dict of actions, validates every seat's entry, and computes
rewards differently.  Its `action_space_mode` matters for the claims, so
it is passed explicitly. -/

inductive ActionSpaceMode : Type
  | integer | multi_binary
deriving DecidableEq, Repr

/-- A value of the actions dict: an integer action, a 52-length one-hot
list, or a missing entry (`dict.get` returning Python `None`). -/
inductive SimAction : Type
  | int (i : Int)
  | mb (l : List Nat)
  | missing
deriving DecidableEq, Repr

/-- `valid_action = [0] * 52; valid_action[card] = 1`. -/
def one_hot (card : Nat) : List Nat :=
  (List.range 52).map (fun i => if i = card then 1 else 0)

/-- What `BridgeSimultaneousActionsEnv.get_available_actions` returns:
an integer card list, a list of one-hot encodings, or Python `None` —
for a non-active seat in `multi_binary` mode the source evaluates
`[].append([0] * 52)`, and `list.append` returns `None`. -/
inductive SimAvail : Type
  | ints (l : List Int)
  | mbs (l : List (List Nat))
  | pynone
deriving Repr

/-- `BridgeSimultaneousActionsEnv.get_available_actions`: for the active
seat, the same legal set as the single-action environment (one-hot encoded
in `multi_binary` mode); for other seats, `CardList([-1])` in `integer`
mode and Python `None` in `multi_binary` mode. -/
def sim_get_available_actions (mode : ActionSpaceMode) (e : Env) (p : Player) : SimAvail :=
  if p = e.active_player then
    let base := get_available_actions e p
    match mode with
    | ActionSpaceMode.integer => SimAvail.ints (base.map Int.ofNat)
    | ActionSpaceMode.multi_binary => SimAvail.mbs (base.map one_hot)
  else
    match mode with
    | ActionSpaceMode.integer => SimAvail.ints [-1]
    | ActionSpaceMode.multi_binary => SimAvail.pynone

/-- Python `x in avail` for a seat's action: `in` against `None` raises
`TypeError`; comparisons between values of different shapes are `False`. -/
def sim_action_in (a : SimAction) (av : SimAvail) : Except String Bool :=
  match av with
  | SimAvail.pynone => Except.error "TypeError"
  | SimAvail.ints l =>
      Except.ok (match a with
        | SimAction.int i => l.contains i
        | _ => false)
  | SimAvail.mbs l =>
      Except.ok (match a with
        | SimAction.mb v => l.contains v
        | _ => false)

/-- `actions_are_valid = {player: actions.get(player) in
self.get_available_actions(player) for player in self.players}`: the dict
comprehension runs over `N, E, S, W` in order and propagates the first
`TypeError`. -/
def sim_actions_are_valid (mode : ActionSpaceMode) (e : Env) (actions : Player → SimAction) :
    Except String (Player → Bool) := do
  let vN ← sim_action_in (actions Player.N) (sim_get_available_actions mode e Player.N)
  let vE ← sim_action_in (actions Player.E) (sim_get_available_actions mode e Player.E)
  let vS ← sim_action_in (actions Player.S) (sim_get_available_actions mode e Player.S)
  let vW ← sim_action_in (actions Player.W) (sim_get_available_actions mode e Player.W)
  pure (fun p => match p with
    | Player.N => vN | Player.E => vE | Player.S => vS | Player.W => vW)

/-- `CardList.convert_multi_binary_to_integer`: `int(np.argmax(...))`. -/
def convert_multi_binary_to_integer (l : List Nat) : Nat := np_argmax l

/-- The active seat's card in `BridgeSimultaneousActionsEnv._game_controller`:
the proposed action when it was valid, else `random.choice` from the
active seat's available actions (`none` models the `IndexError` on an
empty sequence). -/
def sim_choose_card (mode : ActionSpaceMode) (e : Env) (actions : Player → SimAction)
    (valids : Player → Bool) (rnd : Nat) : Option Nat :=
  if valids e.active_player then
    match actions e.active_player with
    | SimAction.int i => some i.toNat
    | SimAction.mb l => some (convert_multi_binary_to_integer l)
    | SimAction.missing => some 0
  else
    match sim_get_available_actions mode e e.active_player with
    | SimAvail.ints l =>
        if l.isEmpty then none else some (l.getD (rnd % l.length) 0).toNat
    | SimAvail.mbs l =>
        if l.isEmpty then none
        else some (convert_multi_binary_to_integer (l.getD (rnd % l.length) []))
    | SimAvail.pynone => none

/-- `BridgeSimultaneousActionsEnv._get_rewards`.  The `win`/`win_points`
branches assign the contract outcome only once `tricks_played == 13`;
`win_tricks` has no final-trick lookahead; `play_cards` sets every seat
with a valid entry to 0; and the final loop sets every seat with an
invalid entry to −1000 regardless of the reward mode. -/
def get_rewards_sim (e : Env) (trick_winner : Option Player)
    (chosen_cards_are_valid : Player → Bool) : Player → Int :=
  let rewards := e.rewards
  let base : Player → Int :=
    match e.reward_mode with
    | RewardMode.win =>
        if e.tricks_played = 13 then contract_rewards e 0 rewards else rewards
    | RewardMode.win_points =>
        if e.tricks_played = 13 then contract_rewards e 0 rewards else rewards
    | RewardMode.win_tricks =>
        match trick_winner with
        | some tw =>
            Function.update (Function.update (Function.update (Function.update rewards
              tw 1) (next_player tw) 0) (next_player (next_player tw)) 1)
              (next_player (next_player (next_player tw))) 0
        | none => rewards
    | RewardMode.play_cards =>
        players.foldl (fun r p => if chosen_cards_are_valid p then Function.update r p 0 else r)
          rewards
  players.foldl (fun r p => if chosen_cards_are_valid p then r else Function.update r p (-1000))
    base

/-- `BridgeSimultaneousActionsEnv._game_controller`: validate all four
entries (possibly raising `TypeError`), play the active seat's card (or a
substituted legal one), and resolve the trick exactly as the single-action
controller does, with the simultaneous reward computation. -/
def sim_game_controller (mode : ActionSpaceMode) (e : Env) (actions : Player → SimAction)
    (rnd : Nat) : Env × Option String :=
  match sim_actions_are_valid mode e actions with
  | Except.error exc => (e, some exc)
  | Except.ok valids =>
      match sim_choose_card mode e actions valids rnd with
      | none => (e, some "IndexError")
      | some card =>
          let e1 := place_env e card
          if e1.n_cards_on_table < 4 then
            let e2 := { e1 with
              current_suit := if e1.current_suit = none then some (card % 4) else e1.current_suit }
            ({ e2 with rewards := get_rewards_sim e2 none valids,
                       active_player := next_player e2.active_player }, none)
          else
            let trick_winner := get_trick_winner e1.table e1.current_suit e1.trump
            let e2 := clear_table e1
            let w1 := Function.update e2.won_tricks trick_winner
              (e2.won_tricks trick_winner + 1)
            let pp := next_player (next_player trick_winner)
            let w2 := Function.update w1 pp (w1 pp + 1)
            let e3 := { e2 with tricks_played := e2.tricks_played + 1, won_tricks := w2 }
            ({ e3 with rewards := get_rewards_sim e3 (some trick_winner) valids,
                       active_player := trick_winner }, none)

/-- `BridgeSimultaneousActionsEnv.step`: run the controller, then return
per-seat dicts of observations, rewards and done flags, one entry per seat
in `players` order (`info` is an empty dict and is omitted).  When the
controller raises, the exception propagates and no tuple is returned. -/
def sim_step (mode : ActionSpaceMode) (e : Env) (actions : Player → SimAction) (rnd : Nat) :
    Env × Option (List (Player × Observation) × List (Player × Int) × List (Player × Bool)) ×
      Option String :=
  match sim_game_controller mode e actions rnd with
  | (e1, some exc) => (e1, none, some exc)
  | (e1, none) =>
      (e1, some (players.map (fun p => (p, get_player_observation e1 p)),
                 players.map (fun p => (p, e1.rewards p)),
                 players.map (fun p => (p, (e1.hands p).isEmpty))), none)

/-! ## Concrete test fixtures -/

/-- A deterministic deal: N gets all clubs, E all diamonds, S all hearts,
W all spades (cards `4k`, `4k+1`, `4k+2`, `4k+3`). -/
def test_deck : List Nat :=
  (List.range 13).map (fun k => 4 * k) ++ (List.range 13).map (fun k => 4 * k + 1) ++
  (List.range 13).map (fun k => 4 * k + 2) ++ (List.range 13).map (fun k => 4 * k + 3)

/-- A mid-trick state: E has led the 2♦ (card 1), S is to play and holds
the 3♦ (card 5) and the 2♥ (card 2). -/
def c2_test_env : Env :=
  { reward_mode := RewardMode.play_cards
    trump := none
    contract_value := 1
    declarer := Player.N
    active_player := Player.S
    hands := fun p => match p with
      | Player.N => [0] | Player.E => [] | Player.S => [5, 2] | Player.W => [3]
    table := fun p => match p with | Player.E => [1] | _ => []
    played_tricks := fun _ _ => []
    won_tricks := fun _ => 0
    current_suit := some 1
    n_cards_on_table := 1
    rewards := fun _ => 0
    tricks_played := 0 }

/-! ## C10: simultaneous variant in multi_binary mode -/

/-- C10.  With `action_space_mode='multi_binary'`, the simultaneous
environment's `get_available_actions` returns Python `None`
(`[].append([0] * 52)`) for every non-active seat, so the validity dict
comprehension in `_game_controller` tests membership against `None` and
every `step` call raises `TypeError` before any card is played: the state
is untouched and no observation/reward/done dicts are produced.  (The
in-range hypothesis rules out hands on which the one-hot encoding of the
active seat's legal cards would itself raise `IndexError` first.) -/
theorem sim_multi_binary_type_error (e : Env) (actions : Player → SimAction) (rnd : Nat)
    (hrange : ∀ p c, c ∈ e.hands p → c < 52) :
    (∀ p, p ≠ e.active_player →
        sim_get_available_actions ActionSpaceMode.multi_binary e p = SimAvail.pynone) ∧
    sim_game_controller ActionSpaceMode.multi_binary e actions rnd = (e, some "TypeError") ∧
    (sim_step ActionSpaceMode.multi_binary e actions rnd).1 = e ∧
    (sim_step ActionSpaceMode.multi_binary e actions rnd).2.1 = none ∧
    (sim_step ActionSpaceMode.multi_binary e actions rnd).2.2 = some "TypeError" := by
  have hnon : ∀ p, p ≠ e.active_player →
      sim_get_available_actions ActionSpaceMode.multi_binary e p = SimAvail.pynone := by
    intro p hp
    simp [sim_get_available_actions, hp]
  have hval : sim_actions_are_valid ActionSpaceMode.multi_binary e actions =
      Except.error "TypeError" := by
    rcases hap : e.active_player with _ | _ | _ | _ <;>
      simp [sim_actions_are_valid, sim_get_available_actions, sim_action_in, hap,
        Bind.bind, Except.bind]
  have hctrl : sim_game_controller ActionSpaceMode.multi_binary e actions rnd =
      (e, some "TypeError") := by
    unfold sim_game_controller
    rw [hval]
  refine ⟨hnon, hctrl, ?_, ?_, ?_⟩ <;> simp [sim_step, hctrl]

/-- Witness for C10 at a concrete freshly-reset environment. -/
theorem sim_multi_binary_type_error_witness :
    sim_game_controller ActionSpaceMode.multi_binary
        (reset_random RewardMode.play_cards test_deck Player.N none 1)
        (fun _ => SimAction.missing) 0 =
      (reset_random RewardMode.play_cards test_deck Player.N none 1, some "TypeError") ∧
    (sim_step ActionSpaceMode.multi_binary
        (reset_random RewardMode.play_cards test_deck Player.N none 1)
        (fun _ => SimAction.missing) 0).2.1 = none :=
  ⟨(sim_multi_binary_type_error _ _ 0 (by decide)).2.1,
   (sim_multi_binary_type_error _ _ 0 (by decide)).2.2.2.1⟩

/-! ## C9: reset validation -/

/-- Counterexample to C9 as stated: `reset` with a valid seat but
malformed hands (wrong count, duplicate card 0, out-of-range card 99)
does *not* raise — the hands are installed without any validation. -/
theorem reset_validation_counterexample :
    (match reset_with_state RewardMode.play_cards "N" (fun _ => [0, 0, 99]) none 3 with
      | Except.ok _ => true
      | Except.error _ => false) = true := by
  decide

/-- C9 amended.  An invalid seat identifier raises immediately at
`reset`; with a valid seat identifier `reset` succeeds and installs the
given hands unchanged, whatever they are (malformed hands are accepted
silently); and at step time a proposed card outside the legal set is never
fatal while any legal card remains — it is silently replaced by a
substituted member of the legal set. -/
theorem reset_validation_amended :
    (∀ rm s hands trump cv, parse_player s = none →
        reset_with_state rm s hands trump cv =
          Except.error "Exception: Setting players roles failed") ∧
    (∀ rm s d hands trump cv, parse_player s = some d →
        Except.map Env.hands (reset_with_state rm s hands trump cv) = Except.ok hands) ∧
    (∀ e action rnd, int_mem action (get_available_actions e e.active_player) = false →
        (get_available_actions e e.active_player).isEmpty = false →
        (choose_card e action rnd).isSome = true ∧
        ∀ card v, choose_card e action rnd = some (card, v) →
          v = false ∧ card ∈ get_available_actions e e.active_player) := by
  refine ⟨?_, ?_, ?_⟩
  · intro rm s hands trump cv h
    simp [reset_with_state, h]
  · intro rm s d hands trump cv h
    simp [reset_with_state, h, Except.map]
  · intro e action rnd h1 h2
    have hlen : 0 < (get_available_actions e e.active_player).length := by
      rcases hav : get_available_actions e e.active_player with _ | ⟨x, xs⟩
      · rw [hav] at h2
        simp at h2
      · simp
    have hch : choose_card e action rnd =
        some ((get_available_actions e e.active_player).getD
          (rnd % (get_available_actions e e.active_player).length) 0, false) := by
      simp [choose_card, h1, h2]
    refine ⟨by simp [hch], ?_⟩
    intro card v hcv
    rw [hch] at hcv
    have hpair := Option.some.inj hcv
    rw [Prod.mk.injEq] at hpair
    obtain ⟨h5, h6⟩ := hpair
    refine ⟨h6.symm, ?_⟩
    rw [← h5, List.getD_eq_getElem _ _ (Nat.mod_lt _ hlen)]
    exact List.getElem_mem _

/-- Witness for C9's amended statement. -/
theorem reset_validation_amended_witness :
    reset_with_state RewardMode.play_cards "Q" (fun _ => []) none 1 =
      Except.error "Exception: Setting players roles failed" ∧
    Except.map Env.hands
        (reset_with_state RewardMode.play_cards "N" (fun _ => [0, 0, 99]) none 3) =
      Except.ok (fun _ => [0, 0, 99]) ∧
    (choose_card (reset_random RewardMode.play_cards test_deck Player.N none 1) 100 0).isSome
      = true :=
  ⟨reset_validation_amended.1 _ _ _ _ _ (by decide),
   reset_validation_amended.2.1 _ _ Player.N _ _ _ (by decide),
   (reset_validation_amended.2.2 _ 100 0 (by decide) (by decide)).1⟩

/-! ## C2: legality enforcement -/

/-- In `integer` mode the simultaneous `get_available_actions` always
yields an integer list: the active seat's legal cards, `[-1]` otherwise. -/
lemma sim_avail_integer (e : Env) (p : Player) :
    sim_get_available_actions ActionSpaceMode.integer e p =
      SimAvail.ints (if p = e.active_player
        then (get_available_actions e p).map Int.ofNat else [-1]) := by
  unfold sim_get_available_actions
  split_ifs <;> rfl

/-- Closed form of the validity dict in `integer` mode (no `TypeError`): a
seat's entry is valid iff it is an integer contained in that seat's
available-actions list. -/
lemma sim_actions_are_valid_integer (e : Env) (actions : Player → SimAction) :
    sim_actions_are_valid ActionSpaceMode.integer e actions =
      Except.ok (fun p =>
        match actions p with
        | SimAction.int i =>
            (if p = e.active_player then (get_available_actions e p).map Int.ofNat
             else [-1]).contains i
        | _ => false) := by
  simp only [sim_actions_are_valid, sim_avail_integer, sim_action_in, Bind.bind, Except.bind,
    pure]
  congr 1
  funext p
  cases p <;> rfl

/-- With a led suit and at least one card of it in the hand, the legal
set is exactly the hand's led-suit cards. -/
lemma get_available_actions_of_suit (e : Env) (p : Player) (s : Nat)
    (hcs : e.current_suit = some s) (hne : get_suit_cards (e.hands p) s ≠ []) :
    get_available_actions e p = get_suit_cards (e.hands p) s := by
  have hlen : ¬ (get_suit_cards (e.hands p) s).length < 1 := by
    rcases hl : get_suit_cards (e.hands p) s with _ | ⟨x, xs⟩
    · exact absurd hl hne
    · simp
  simp [get_available_actions, hcs, hlen]

/-- Members of `get_suit_cards` are led-suit cards of the hand. -/
lemma mem_get_suit_cards {l : List Nat} {s card : Nat} (h : card ∈ get_suit_cards l s) :
    card % 4 = s ∧ card ∈ l := by
  rw [get_suit_cards, List.mem_filter] at h
  exact ⟨by simpa using h.2, h.1⟩

/-- `int_mem` membership gives an actual card of the list. -/
lemma int_mem_exists {a : Int} {l : List Nat} (h : int_mem a l = true) :
    ∃ c ∈ l, (c : Int) = a ∧ a.toNat = c := by
  rw [int_mem, List.any_eq_true] at h
  obtain ⟨c, hc, he⟩ := h
  have he' : (c : Int) = a := by simpa using he
  exact ⟨c, hc, he', by omega⟩

/-- A `getD` at a reduced random index is a member of a nonempty list. -/
lemma getD_mod_mem {l : List Nat} (rnd : Nat) (h : l ≠ []) :
    l.getD (rnd % l.length) 0 ∈ l := by
  have hlen : 0 < l.length := List.length_pos.2 h
  rw [List.getD_eq_getElem _ _ (Nat.mod_lt _ hlen)]
  exact List.getElem_mem _

/-- C2.  In both environment variants, the legal set is the whole hand
when no card has been led, the hand's led-suit cards otherwise, falling
back to the whole hand when the seat holds none of that suit; and whenever
the active seat holds at least one card of the led suit, the card the
controller actually removes from that hand and appends to that seat's
table pile is of the led suit, for a valid proposed action and for a
random substitution alike. -/
theorem legality_enforcement :
    (∀ e p, e.current_suit = none → get_available_actions e p = e.hands p) ∧
    (∀ e p s, e.current_suit = some s →
        (get_suit_cards (e.hands p) s ≠ [] →
            get_available_actions e p = get_suit_cards (e.hands p) s) ∧
        (get_suit_cards (e.hands p) s = [] → get_available_actions e p = e.hands p)) ∧
    (∀ e s action rnd card valid, e.current_suit = some s →
        get_suit_cards (e.hands e.active_player) s ≠ [] →
        choose_card e action rnd = some (card, valid) →
        card % 4 = s ∧ card ∈ e.hands e.active_player ∧
        (place_env e card).hands e.active_player = (e.hands e.active_player).erase card ∧
        (place_env e card).table e.active_player = e.table e.active_player ++ [card]) ∧
    (∀ e s actions valids rnd card, e.current_suit = some s →
        get_suit_cards (e.hands e.active_player) s ≠ [] →
        sim_actions_are_valid ActionSpaceMode.integer e actions = Except.ok valids →
        sim_choose_card ActionSpaceMode.integer e actions valids rnd = some card →
        card % 4 = s ∧ card ∈ e.hands e.active_player) := by
  refine ⟨?_, ?_, ?_, ?_⟩
  · intro e p h
    simp [get_available_actions, h]
  · intro e p s h
    refine ⟨fun hne => get_available_actions_of_suit e p s h hne, fun hem => ?_⟩
    simp [get_available_actions, h, hem]
  · intro e s action rnd card valid hcs hne hch
    have havail := get_available_actions_of_suit e e.active_player s hcs hne
    have hcard : card ∈ get_suit_cards (e.hands e.active_player) s := by
      rw [choose_card, havail] at hch
      by_cases hv : int_mem action (get_suit_cards (e.hands e.active_player) s)
      · rw [if_pos hv] at hch
        obtain ⟨c, hc, _, htn⟩ := int_mem_exists hv
        have := Option.some.inj hch
        rw [Prod.mk.injEq] at this
        rw [← this.1, htn]
        exact hc
      · rw [if_neg (by simp [hv]), if_neg (by simp [hne])] at hch
        have := Option.some.inj hch
        rw [Prod.mk.injEq] at this
        rw [← this.1]
        exact getD_mod_mem rnd hne
    obtain ⟨hc4, hcm⟩ := mem_get_suit_cards hcard
    exact ⟨hc4, hcm, by simp [place_env], by simp [place_env]⟩
  · intro e s actions valids rnd card hcs hne hv hch
    have havail := get_available_actions_of_suit e e.active_player s hcs hne
    have hcard : card ∈ get_suit_cards (e.hands e.active_player) s := by
      rcases htrue : valids e.active_player with _ | _
      · have hmne : (get_suit_cards (e.hands e.active_player) s).map Int.ofNat ≠ [] := by
          simpa using hne
        have hlen : 0 < ((get_suit_cards (e.hands e.active_player) s).map Int.ofNat).length :=
          List.length_pos.2 hmne
        have hidx := Nat.mod_lt rnd hlen
        have hch' : sim_choose_card ActionSpaceMode.integer e actions valids rnd =
            some ((((get_suit_cards (e.hands e.active_player) s).map Int.ofNat).getD
              (rnd % ((get_suit_cards (e.hands e.active_player) s).map Int.ofNat).length)
              0).toNat) := by
          unfold sim_choose_card
          rw [htrue, sim_avail_integer, if_pos rfl, havail]
          simp only [Bool.false_eq_true, if_false]
          rw [if_neg (by simp [hmne])]
        rw [hch'] at hch
        have := Option.some.inj hch
        rw [← this]
        have htn : ∀ n : Nat, (Int.ofNat n).toNat = n := fun n => rfl
        rw [List.getD_eq_getElem _ _ hidx, List.getElem_map, htn]
        exact List.getElem_mem _
      · rw [sim_actions_are_valid_integer] at hv
        have hfun := Except.ok.inj hv
        have hval' := congrFun hfun e.active_player
        rw [htrue] at hval'
        rw [sim_choose_card, htrue, if_pos rfl] at hch
        rcases hac : actions e.active_player with i | l | _ <;> rw [hac] at hval' hch
        · rw [if_pos rfl] at hval'
          have hmem : i ∈ (get_available_actions e e.active_player).map Int.ofNat := by
            simpa [List.contains] using hval'.symm
          obtain ⟨c, hc, hci⟩ := List.mem_map.1 hmem
          rw [havail] at hc
          have := Option.some.inj hch
          rw [← this, ← hci]
          simpa using hc
        · exact absurd hval'.symm (by simp)
        · exact absurd hval'.symm (by simp)
    exact mem_get_suit_cards hcard

/-- Witness for C2: from `c2_test_env`, where S must follow diamonds and
holds the 3♦, both an invalid proposal (card 2) in either variant's
controller and a valid simultaneous proposal produce a diamond. -/
theorem legality_enforcement_witness :
    ((5 : Nat) % 4 = 1 ∧ 5 ∈ c2_test_env.hands Player.S ∧
      (place_env c2_test_env 5).hands Player.S = (c2_test_env.hands Player.S).erase 5 ∧
      (place_env c2_test_env 5).table Player.S = c2_test_env.table Player.S ++ [5]) ∧
    ((5 : Nat) % 4 = 1 ∧ 5 ∈ c2_test_env.hands Player.S) ∧
    get_available_actions c2_test_env Player.S = get_suit_cards (c2_test_env.hands Player.S) 1 :=
  ⟨legality_enforcement.2.2.1 c2_test_env 1 2 0 5 false rfl (by decide) (by decide),
   legality_enforcement.2.2.2 c2_test_env 1
     (fun p => if p = Player.S then SimAction.int 5 else SimAction.int (-1))
     (fun p =>
        match (fun p => if p = Player.S then SimAction.int 5 else SimAction.int (-1)) p with
        | SimAction.int i =>
            (if p = c2_test_env.active_player
             then (get_available_actions c2_test_env p).map Int.ofNat
             else [-1]).contains i
        | _ => false)
     0 5 rfl (by decide)
     (sim_actions_are_valid_integer c2_test_env
        (fun p => if p = Player.S then SimAction.int 5 else SimAction.int (-1)))
     (by decide),
   (legality_enforcement.2.1 c2_test_env Player.S 1 rfl).1 (by decide)⟩

/-! ## Reward policy lemmas -/

/-- Every seat is in `players`. -/
lemma mem_players (q : Player) : q ∈ players := by
  rcases q <;> decide

/-- Evaluation of the `for player, valid: if not valid: rewards[player] = v`
loop. -/
lemma override_skip_foldl_eval (cond : Player → Bool) (v : Int) (l : List Player) :
    ∀ (base : Player → Int) (q : Player),
      (l.foldl (fun r p => if cond p then r else Function.update r p v) base) q =
        if cond q = false ∧ q ∈ l then v else base q := by
  induction l with
  | nil =>
      intro base q
      simp
  | cons p rest ih =>
      intro base q
      rw [List.foldl_cons, ih]
      by_cases h3 : p = q
      · subst h3
        cases h1 : cond p <;> simp [h1, Function.update_same]
      · have hq : ¬ q = p := fun hh => h3 hh.symm
        have hinner : (if cond p then base else Function.update base p v) q = base q := by
          split_ifs
          · rfl
          · exact Function.update_noteq hq _ _
        rw [hinner]
        by_cases h2 : q ∈ rest
        · simp [h2]
        · have h2' : ¬ q ∈ p :: rest := by simp [h2, hq]
          simp [h2, h2']

/-- Evaluation of the `for player, valid: if valid: rewards[player] = v`
loop. -/
lemma update_if_foldl_eval (cond : Player → Bool) (v : Int) (l : List Player) :
    ∀ (base : Player → Int) (q : Player),
      (l.foldl (fun r p => if cond p then Function.update r p v else r) base) q =
        if cond q = true ∧ q ∈ l then v else base q := by
  induction l with
  | nil =>
      intro base q
      simp
  | cons p rest ih =>
      intro base q
      rw [List.foldl_cons, ih]
      by_cases h3 : p = q
      · subst h3
        cases h1 : cond p <;> simp [h1, Function.update_same]
      · have hq : ¬ q = p := fun hh => h3 hh.symm
        have hinner : (if cond p then Function.update base p v else base) q = base q := by
          split_ifs
          · exact Function.update_noteq hq _ _
          · rfl
        rw [hinner]
        by_cases h2 : q ∈ rest
        · simp [h2]
        · have h2' : ¬ q ∈ p :: rest := by simp [h2, hq]
          simp [h2, h2']

/-! ## C5: invalid-action penalty -/

/-- Counterexample to C5 as stated: in the simultaneous variant in
`play_cards` mode (a mode other than `win_points`), an invalid proposal by
the acting seat is penalised with −1000, not −2. -/
theorem invalid_penalty_counterexample :
    (sim_game_controller ActionSpaceMode.integer
        (reset_random RewardMode.play_cards test_deck Player.N none 1)
        (fun p => if p = Player.E then SimAction.int 0 else SimAction.int (-1)) 0).1.rewards
      Player.E = -1000 ∧ ((-1000 : Int) ≠ -2) := by
  constructor
  · decide
  · decide

/-- C5 amended.  In the single-action variant an invalid proposal gives
the acting seat −1000 in `win_points` mode and −2 in every other mode,
overriding the mode's computation and independently of the substituted
card; in the simultaneous variant every seat whose entry is invalid gets
−1000 in *every* reward mode. -/
theorem invalid_penalty_amended :
    (∀ e tw r, get_rewards_single e tw false = some r →
        r e.active_player =
          if e.reward_mode = RewardMode.win_points then -1000 else -2) ∧
    (∀ e tw valids q, valids q = false → get_rewards_sim e tw valids q = -1000) := by
  constructor
  · intro e tw r h
    unfold get_rewards_single at h
    rcases hbase : get_rewards_single_base e tw false with _ | r'
    · rw [hbase] at h
      exact absurd h (by simp)
    · rw [hbase] at h
      simp only [Bool.false_eq_true, if_false] at h
      have := Option.some.inj h
      rw [← this, Function.update_same]
  · intro e tw valids q h
    unfold get_rewards_sim
    rw [override_skip_foldl_eval]
    rw [if_pos ⟨h, mem_players q⟩]

/-- Witness for C5's amended statement at a freshly-reset state. -/
theorem invalid_penalty_amended_witness :
    ((get_rewards_single (reset_random RewardMode.play_cards test_deck Player.N none 1)
        none false).getD (fun _ => 0))
      (reset_random RewardMode.play_cards test_deck Player.N none 1).active_player =
      (if (reset_random RewardMode.play_cards test_deck Player.N none 1).reward_mode =
          RewardMode.win_points then -1000 else -2) ∧
    get_rewards_sim (reset_random RewardMode.play_cards test_deck Player.N none 1)
      none (fun _ => false) Player.N = -1000 :=
  ⟨invalid_penalty_amended.1 _ none _ rfl,
   invalid_penalty_amended.2 _ none _ Player.N rfl⟩

/-! ## C7: play_cards rewards -/

/-- Counterexample to C7 as stated: in the simultaneous variant in
`play_cards` mode, the acting seat's *valid* proposal earns 0, not +1. -/
theorem play_cards_reward_counterexample :
    (sim_game_controller ActionSpaceMode.integer
        (reset_random RewardMode.play_cards test_deck Player.N none 1)
        (fun p => if p = Player.E then SimAction.int 1 else SimAction.int (-1)) 0).1.rewards
      Player.E = 0 ∧ ((0 : Int) ≠ 1) := by
  constructor
  · decide
  · decide

/-- C7 amended.  In the single-action variant the acting seat's entry in
the rewards dict becomes +1 when the proposed action was legal and −2
otherwise, while every other seat *retains its previous value* (the dict
starts from a deep copy of the previous step's rewards); in the
simultaneous variant every seat with a valid entry gets 0 and every seat
with an invalid entry −1000. -/
theorem play_cards_rewards_amended :
    (∀ e tw, e.reward_mode = RewardMode.play_cards →
        get_rewards_single e tw true =
          some (Function.update e.rewards e.active_player 1)) ∧
    (∀ e tw, e.reward_mode = RewardMode.play_cards →
        get_rewards_single e tw false =
          some (Function.update e.rewards e.active_player (-2))) ∧
    (∀ e tw valids q, e.reward_mode = RewardMode.play_cards →
        get_rewards_sim e tw valids q = if valids q then 0 else -1000) := by
  refine ⟨?_, ?_, ?_⟩
  · intro e tw h
    unfold get_rewards_single get_rewards_single_base
    rw [h]
    rfl
  · intro e tw h
    unfold get_rewards_single get_rewards_single_base
    rw [h]
    simp
  · intro e tw valids q h
    have hbase : get_rewards_sim e tw valids =
        players.foldl (fun r p => if valids p then r else Function.update r p (-1000))
          (players.foldl (fun r p => if valids p then Function.update r p 0 else r)
            e.rewards) := by
      unfold get_rewards_sim
      rw [h]
    rw [hbase, override_skip_foldl_eval, update_if_foldl_eval]
    cases hq : valids q
    · rw [if_pos ⟨rfl, mem_players q⟩]
      simp
    · rw [if_neg (by simp), if_pos ⟨rfl, mem_players q⟩]
      simp

/-- Witness for C7's amended statement at a freshly-reset state. -/
theorem play_cards_rewards_amended_witness :
    get_rewards_single (reset_random RewardMode.play_cards test_deck Player.N none 1) none true =
      some (Function.update
        (reset_random RewardMode.play_cards test_deck Player.N none 1).rewards
        (reset_random RewardMode.play_cards test_deck Player.N none 1).active_player 1) ∧
    get_rewards_single (reset_random RewardMode.play_cards test_deck Player.N none 1) none false =
      some (Function.update
        (reset_random RewardMode.play_cards test_deck Player.N none 1).rewards
        (reset_random RewardMode.play_cards test_deck Player.N none 1).active_player (-2)) ∧
    get_rewards_sim (reset_random RewardMode.play_cards test_deck Player.N none 1) none
      (fun _ => true) Player.E = (if (fun (_ : Player) => true) Player.E then 0 else -1000) :=
  ⟨play_cards_rewards_amended.1 _ none rfl,
   play_cards_rewards_amended.2.1 _ none rfl,
   play_cards_rewards_amended.2.2 _ none (fun _ => true) Player.E rfl⟩

/-- Drive the single-action environment through a list of proposed
actions (substitution oracle fixed at 0), keeping the mutated state. -/
def run_steps (e : Env) (acts : List Int) : Env :=
  acts.foldl (fun ee a => (game_controller ee a 0).1) e

/-! ## C6: win_tricks rewards -/

/-- Pointwise evaluation of `rewards[w]=1; rewards[next]=0;
rewards[next2]=1; rewards[next3]=0`. -/
lemma update_chain_eval (base : Player → Int) (w : Player) (a b c d : Int) :
    (Function.update (Function.update (Function.update (Function.update base w a)
      (next_player w) b) (next_player (next_player w)) c)
      (next_player (next_player (next_player w))) d) w = a ∧
    (Function.update (Function.update (Function.update (Function.update base w a)
      (next_player w) b) (next_player (next_player w)) c)
      (next_player (next_player (next_player w))) d) (next_player w) = b ∧
    (Function.update (Function.update (Function.update (Function.update base w a)
      (next_player w) b) (next_player (next_player w)) c)
      (next_player (next_player (next_player w))) d) (next_player (next_player w)) = c ∧
    (Function.update (Function.update (Function.update (Function.update base w a)
      (next_player w) b) (next_player (next_player w)) c)
      (next_player (next_player (next_player w))) d)
      (next_player (next_player (next_player w))) = d := by
  rcases w <;> simp [next_player, Function.update]

/-- Counterexample to C6 as stated: `win_tricks` mode, five steps from a
fixed deal.  The fourth step completes a trick (E wins); the fifth step
completes no trick, yet E's reward stays 1 instead of every seat
receiving 0 — the rewards dict retains the previous step's values. -/
theorem win_tricks_counterexample :
    (run_steps (reset_random RewardMode.win_tricks test_deck Player.N none 1)
        [1, 2, 3, 0, 5]).n_cards_on_table = 1 ∧
    (run_steps (reset_random RewardMode.win_tricks test_deck Player.N none 1)
        [1, 2, 3, 0, 5]).rewards Player.E = 1 ∧ ((1 : Int) ≠ 0) := by
  refine ⟨by decide, by decide, by decide⟩

/-- C6 amended.  In the single-action variant, a trick-completing step
sets winner and partner to 1 and the losing pair to 0; a non-completing
step leaves the whole rewards dict at its previous values (not 0); the
lookahead runs when `tricks_played` reaches 12 — i.e. when the *twelfth*
trick completes, not the thirteenth — and *adds* +1 (never −1) to the
hypothetical extra-trick winner and its partner, on top of the trick
pattern.  The simultaneous variant assigns the same completing-trick
pattern and has no lookahead at all. -/
theorem win_tricks_rewards_amended :
    (∀ e w r, e.reward_mode = RewardMode.win_tricks → e.tricks_played ≠ 12 →
        get_rewards_single e (some w) true = some r →
        r w = 1 ∧ r (next_player w) = 0 ∧ r (next_player (next_player w)) = 1 ∧
          r (next_player (next_player (next_player w))) = 0) ∧
    (∀ e, e.reward_mode = RewardMode.win_tricks →
        get_rewards_single e none true = some e.rewards) ∧
    (∀ e w r, e.reward_mode = RewardMode.win_tricks → e.tricks_played = 12 →
        get_rewards_single e (some w) true = some r →
        ∀ q, r q =
          (Function.update (Function.update (Function.update (Function.update e.rewards w 1)
            (next_player w) 0) (next_player (next_player w)) 1)
            (next_player (next_player (next_player w))) 0) q +
          (if q = lookahead_winner e.hands w e.trump ∨
              q = next_player (next_player (lookahead_winner e.hands w e.trump))
           then 1 else 0)) ∧
    (∀ e w valids q, e.reward_mode = RewardMode.win_tricks → (∀ p, valids p = true) →
        get_rewards_sim e (some w) valids q =
          (Function.update (Function.update (Function.update (Function.update e.rewards w 1)
            (next_player w) 0) (next_player (next_player w)) 1)
            (next_player (next_player (next_player w))) 0) q) := by
  refine ⟨?_, ?_, ?_, ?_⟩
  · intro e w r hmode h12 h
    unfold get_rewards_single get_rewards_single_base at h
    rw [hmode] at h
    simp only [h12, if_false, if_true] at h
    have hr := Option.some.inj h
    rw [← hr]
    exact update_chain_eval e.rewards w 1 0 1 0
  · intro e hmode
    unfold get_rewards_single get_rewards_single_base
    rw [hmode]
    rfl
  · intro e w r hmode h12 h
    set ntw := lookahead_winner e.hands w e.trump with hntw
    set r1 := Function.update (Function.update (Function.update (Function.update e.rewards w 1)
      (next_player w) 0) (next_player (next_player w)) 1)
      (next_player (next_player (next_player w))) 0 with hr1
    have hform : get_rewards_single e (some w) true = some
        (Function.update (Function.update r1 ntw (r1 ntw + 1))
          (next_player (next_player ntw))
          (Function.update r1 ntw (r1 ntw + 1) (next_player (next_player ntw)) + 1)) := by
      unfold get_rewards_single get_rewards_single_base
      rw [hmode, h12]
      rfl
    rw [hform] at h
    have hr := Option.some.inj h
    intro q
    rw [← hr]
    have hppn : ∀ x : Player, next_player (next_player x) ≠ x := by decide
    by_cases hq1 : q = next_player (next_player ntw)
    · subst hq1
      rw [Function.update_same, Function.update_noteq (hppn ntw), if_pos (Or.inr rfl)]
    · rw [Function.update_noteq hq1]
      by_cases hq2 : q = ntw
      · subst hq2
        rw [Function.update_same, if_pos (Or.inl rfl)]
      · rw [Function.update_noteq hq2, if_neg (by tauto)]
        omega
  · intro e w valids q hmode hv
    have hbase : get_rewards_sim e (some w) valids =
        players.foldl (fun r p => if valids p then r else Function.update r p (-1000))
          (Function.update (Function.update (Function.update (Function.update e.rewards w 1)
            (next_player w) 0) (next_player (next_player w)) 1)
            (next_player (next_player (next_player w))) 0) := by
      unfold get_rewards_sim
      rw [hmode]
    rw [hbase, override_skip_foldl_eval, if_neg (by simp [hv q])]

/-- A hand-built end-of-deal state: twelve tricks played, one card left in
each hand, `win_tricks` mode. -/
def c6_test_env : Env :=
  { reward_mode := RewardMode.win_tricks
    trump := none
    contract_value := 1
    declarer := Player.N
    active_player := Player.E
    hands := fun p => match p with
      | Player.N => [48] | Player.E => [49] | Player.S => [50] | Player.W => [51]
    table := fun _ => []
    played_tricks := fun _ _ => []
    won_tricks := fun _ => 0
    current_suit := none
    n_cards_on_table := 0
    rewards := fun _ => 0
    tricks_played := 12 }

/-- Witness for C6's amended statement. -/
theorem win_tricks_rewards_amended_witness :
    ((get_rewards_single (reset_random RewardMode.win_tricks test_deck Player.N none 1)
        (some Player.E) true).getD (fun _ => 0)) Player.E = 1 ∧
    get_rewards_single (reset_random RewardMode.win_tricks test_deck Player.N none 1) none true =
      some (reset_random RewardMode.win_tricks test_deck Player.N none 1).rewards ∧
    ((get_rewards_single c6_test_env (some Player.E) true).getD (fun _ => 0)) Player.W =
      (Function.update (Function.update (Function.update (Function.update c6_test_env.rewards
        Player.E 1) (next_player Player.E) 0) (next_player (next_player Player.E)) 1)
        (next_player (next_player (next_player Player.E))) 0) Player.W +
      (if Player.W = lookahead_winner c6_test_env.hands Player.E c6_test_env.trump ∨
          Player.W = next_player (next_player
            (lookahead_winner c6_test_env.hands Player.E c6_test_env.trump))
       then 1 else 0) ∧
    get_rewards_sim (reset_random RewardMode.win_tricks test_deck Player.N none 1)
        (some Player.E) (fun _ => true) Player.E =
      (Function.update (Function.update (Function.update (Function.update
        (reset_random RewardMode.win_tricks test_deck Player.N none 1).rewards
        Player.E 1) (next_player Player.E) 0) (next_player (next_player Player.E)) 1)
        (next_player (next_player (next_player Player.E))) 0) Player.E :=
  ⟨(win_tricks_rewards_amended.1
      (reset_random RewardMode.win_tricks test_deck Player.N none 1) Player.E
      ((get_rewards_single (reset_random RewardMode.win_tricks test_deck Player.N none 1)
        (some Player.E) true).getD (fun _ => 0)) rfl (by decide) rfl).1,
   win_tricks_rewards_amended.2.1
     (reset_random RewardMode.win_tricks test_deck Player.N none 1) rfl,
   win_tricks_rewards_amended.2.2.1 c6_test_env Player.E
     ((get_rewards_single c6_test_env (some Player.E) true).getD (fun _ => 0))
     rfl rfl rfl Player.W,
   win_tricks_rewards_amended.2.2.2
     (reset_random RewardMode.win_tricks test_deck Player.N none 1) Player.E
     (fun _ => true) Player.E rfl (fun _ => rfl)⟩

/-! ## C8: step return shapes -/

/-- Counterexample to C8 as stated: the single-action `step` returns a
*single* reward — the one of the new active seat — not a per-seat map.
After the opening lead (a legal play by E, rewarded 1 in `play_cards`
mode), the returned reward is 0 (the next seat's), while E's entry in the
rewards dict is 1: no reward for E is contained in the return value. -/
theorem step_return_counterexample :
    ((step_single (reset_random RewardMode.play_cards test_deck Player.N none 1) 1 0).2.1.map
        (fun t => t.2.1)) = some 0 ∧
    (step_single (reset_random RewardMode.play_cards test_deck Player.N none 1) 1 0).1.rewards
      Player.E = 1 ∧ ((0 : Int) ≠ 1) := by
  refine ⟨by decide, by decide, by decide⟩

/-- C8 amended.  The single-action `step` returns
`(observation, reward, done, info)` where `reward` is the single reward of
the *new* active seat and `done` that seat's empty-hand flag; the
simultaneous `step` returns observation/reward/done dicts with exactly one
entry per seat, in `players` order, the reward entries being the
per-seat rewards dict. -/
theorem step_return_amended :
    (∀ e action rnd e1 out, step_single e action rnd = (e1, some out, none) →
        out.2.1 = e1.rewards e1.active_player ∧
        out.2.2 = (e1.hands e1.active_player).isEmpty ∧
        out.1 = get_player_observation e1 e1.active_player) ∧
    (∀ mode e actions rnd e1 out, sim_step mode e actions rnd = (e1, some out, none) →
        out.1.map Prod.fst = players ∧ out.2.1.map Prod.fst = players ∧
        out.2.2.map Prod.fst = players ∧
        (∀ p, (p, e1.rewards p) ∈ out.2.1)) := by
  constructor
  · intro e action rnd e1 out h
    unfold step_single at h
    rcases hc : game_controller e action rnd with ⟨e2, exc⟩
    rw [hc] at h
    rcases exc with _ | s
    · simp only [Prod.mk.injEq] at h
      obtain ⟨he, hout, -⟩ := h
      subst he
      have hout' := Option.some.inj hout
      rw [← hout']
      exact ⟨rfl, rfl, rfl⟩
    · simp only [Prod.mk.injEq] at h
      exact absurd h.2.1 (by simp)
  · intro mode e actions rnd e1 out h
    unfold sim_step at h
    rcases hc : sim_game_controller mode e actions rnd with ⟨e2, exc⟩
    rw [hc] at h
    rcases exc with _ | s
    · simp only [Prod.mk.injEq] at h
      obtain ⟨he, hout, -⟩ := h
      subst he
      have hout' := Option.some.inj hout
      rw [← hout']
      refine ⟨by simp [players], by simp [players], by simp [players], ?_⟩
      intro p
      exact List.mem_map.2 ⟨p, mem_players p, rfl⟩
    · simp only [Prod.mk.injEq] at h
      exact absurd h.2.1 (by simp)

/-- Witness for C8's amended statement, at the opening lead. -/
theorem step_return_amended_witness :
    ((step_single (reset_random RewardMode.play_cards test_deck Player.N none 1) 1 0).2.1.getD
        (get_player_observation (reset_random RewardMode.play_cards test_deck Player.N none 1)
          Player.N, 0, false)).2.1 =
      (step_single (reset_random RewardMode.play_cards test_deck Player.N none 1) 1 0).1.rewards
        (step_single (reset_random RewardMode.play_cards test_deck Player.N none 1) 1
          0).1.active_player ∧
    ((sim_step ActionSpaceMode.integer (reset_random RewardMode.play_cards test_deck Player.N
        none 1) (fun p => if p = Player.E then SimAction.int 1 else SimAction.int (-1)) 0).2.1.getD
      ([], [], [])).1.map Prod.fst = players :=
  ⟨((step_return_amended.1 (reset_random RewardMode.play_cards test_deck Player.N none 1) 1 0
      (step_single (reset_random RewardMode.play_cards test_deck Player.N none 1) 1 0).1
      ((step_single (reset_random RewardMode.play_cards test_deck Player.N none 1) 1 0).2.1.getD
        (get_player_observation (reset_random RewardMode.play_cards test_deck Player.N none 1)
          Player.N, 0, false)) rfl).1),
   ((step_return_amended.2 ActionSpaceMode.integer
      (reset_random RewardMode.play_cards test_deck Player.N none 1)
      (fun p => if p = Player.E then SimAction.int 1 else SimAction.int (-1)) 0
      (sim_step ActionSpaceMode.integer (reset_random RewardMode.play_cards test_deck Player.N
        none 1) (fun p => if p = Player.E then SimAction.int 1 else SimAction.int (-1)) 0).1
      ((sim_step ActionSpaceMode.integer (reset_random RewardMode.play_cards test_deck Player.N
        none 1) (fun p => if p = Player.E then SimAction.int 1 else SimAction.int (-1))
        0).2.1.getD ([], [], [])) rfl).1)⟩

/-! ## C4: win / win_points contract rewards -/

/-- A state mid-way through the twelfth trick of a `test_deck`-style game:
E/W have won the first eleven tricks, E led the 12♦ (card 45), S and W
followed with cards 46 and 47, N is to play holding cards 44 and 48, and
every other hand has one card left.  Declarer N bid 3 in `win_points`. -/
def c4_test_env : Env :=
  { reward_mode := RewardMode.win_points
    trump := none
    contract_value := 3
    declarer := Player.N
    active_player := Player.N
    hands := fun p => match p with
      | Player.N => [44, 48] | Player.E => [49] | Player.S => [50] | Player.W => [51]
    table := fun p => match p with
      | Player.N => [] | Player.E => [45] | Player.S => [46] | Player.W => [47]
    played_tricks := fun _ _ => []
    won_tricks := fun p => match p with
      | Player.N => 0 | Player.E => 11 | Player.S => 0 | Player.W => 11
    current_suit := some 1
    n_cards_on_table := 3
    rewards := fun _ => 0
    tricks_played := 11 }

/-- The same state in `win` mode. -/
def c4_test_env_win : Env := { c4_test_env with reward_mode := RewardMode.win }

/-- C4, evaluated on the code at a failing input (the claim matches the
source's documentation and the simultaneous variant, but the single-action
variant deviates).  Completing the *twelfth* trick from `c4_test_env`
succeeds and, although the episode is not over (every hand still holds a
card), already assigns the final-style `win_points` rewards — defenders E
and W get 1, declarer's pair 0, since `tricks_played == 12` triggers the
end-of-game branch one trick early — so rewards are not zero during play
and are not produced when the 13th trick resolves; and the very next step
raises `KeyError` inside `_get_rewards` (`self.state['hands'][None]`,
because `trick_winner` is `None` on a non-completing step), in `win` mode
as well, so the 13th trick can never be played in these modes. -/
theorem win_points_rewards_bug :
    (game_controller c4_test_env 44 0).2 = none ∧
    (game_controller c4_test_env 44 0).1.tricks_played = 12 ∧
    (((game_controller c4_test_env 44 0).1.hands Player.E).isEmpty = false) ∧
    (game_controller c4_test_env 44 0).1.rewards Player.E = 1 ∧
    (game_controller c4_test_env 44 0).1.rewards Player.W = 1 ∧
    (game_controller c4_test_env 44 0).1.rewards Player.N = 0 ∧
    (game_controller c4_test_env 44 0).1.rewards Player.S = 0 ∧
    (game_controller ((game_controller c4_test_env 44 0).1) 49 0).2 = some "KeyError" ∧
    (game_controller ((game_controller c4_test_env_win 44 0).1) 49 0).2 = some "KeyError" := by
  decide

/-! ## C3: the card-partition invariant -/

/-- Multiset of all cards currently held in the four hands. -/
def handsM (e : Env) : Multiset Nat := ∑ p : Player, (e.hands p : Multiset Nat)

/-- Multiset of all cards currently on the table. -/
def tableM (e : Env) : Multiset Nat := ∑ p : Player, (e.table p : Multiset Nat)

/-- Multiset of the cards recorded in history slot `i`. -/
def played_trickM (e : Env) (i : Nat) : Multiset Nat :=
  ∑ p : Player, (e.played_tricks i p : Multiset Nat)

/-- Multiset of all cards in the 13-slot trick history. -/
def playedM (e : Env) : Multiset Nat :=
  ∑ i ∈ Finset.range 13, played_trickM e i

/-- Every card anywhere in the environment: hands, table and history. -/
def cardsM (e : Env) : Multiset Nat := handsM e + tableM e + playedM e

/-- Total number of cards in the four hands. -/
def handsCount (e : Env) : Nat := ∑ p : Player, (e.hands p).length

/-- The table piles, walked clockwise from the active seat: the first
`4 - n_cards_on_table` piles are empty (those seats have not played in
the current trick), the rest hold exactly one card. -/
def table_shape (e : Env) : Prop :=
  (e.table e.active_player).length = (if 0 < 4 - e.n_cards_on_table then 0 else 1) ∧
  (e.table (next_player e.active_player)).length =
    (if 1 < 4 - e.n_cards_on_table then 0 else 1) ∧
  (e.table (next_player (next_player e.active_player))).length =
    (if 2 < 4 - e.n_cards_on_table then 0 else 1) ∧
  (e.table (next_player (next_player (next_player e.active_player)))).length =
    (if 3 < 4 - e.n_cards_on_table then 0 else 1)

/-- The inductive invariant: the 52 cards are partitioned across hands,
table and history; fewer than four cards are on the table between steps;
the table piles follow the clockwise shape; and the card count bookkeeping
ties hands, table and completed tricks together. -/
def EnvInv (e : Env) : Prop :=
  cardsM e = (List.range 52 : Multiset Nat) ∧
  e.n_cards_on_table < 4 ∧
  table_shape e ∧
  handsCount e + e.n_cards_on_table + 4 * e.tricks_played = 52

/-- States reachable from a standard random deal by steps of the
single-action environment that complete without raising. -/
inductive Reachable : Env → Prop
  | init (rm : RewardMode) (deck : List Nat) (d : Player) (trump : Option Nat) (cv : Nat) :
      List.Perm deck (List.range 52) → Reachable (reset_random rm deck d trump cv)
  | step (e : Env) (a : Int) (r : Nat) : Reachable e → (game_controller e a r).2 = none →
      Reachable (game_controller e a r).1

lemma next_player_ne (p : Player) : next_player p ≠ p := by rcases p <;> decide

lemma next_player_ne2 (p : Player) : next_player (next_player p) ≠ p := by rcases p <;> decide

lemma next_player_ne3 (p : Player) :
    next_player (next_player (next_player p)) ≠ p := by rcases p <;> decide

lemma next_player_four (p : Player) :
    next_player (next_player (next_player (next_player p))) = p := by rcases p <;> decide

lemma player_cases (a p : Player) :
    p = a ∨ p = next_player a ∨ p = next_player (next_player a) ∨
      p = next_player (next_player (next_player a)) := by
  rcases a <;> rcases p <;> simp [next_player]

/-- Putting an erased member back restores the multiset. -/
lemma erase_add_singleton (l : List Nat) (c : Nat) (h : c ∈ l) :
    ((l.erase c : List Nat) : Multiset Nat) + {c} = (l : Multiset Nat) := by
  have hp : (l : Multiset Nat) = ((c :: l.erase c : List Nat) : Multiset Nat) :=
    Quot.sound (List.perm_cons_erase h)
  rw [hp, ← Multiset.cons_coe, add_comm, Multiset.singleton_add]

/-- The legal set is always a subset of the hand. -/
lemma get_available_actions_subset (e : Env) (p : Player) :
    ∀ c ∈ get_available_actions e p, c ∈ e.hands p := by
  intro c hc
  unfold get_available_actions at hc
  rcases hcs : e.current_suit with _ | s
  · rw [hcs] at hc
    exact hc
  · rw [hcs] at hc
    have hc' : c ∈ (if (get_suit_cards (e.hands p) s).length < 1 then e.hands p
        else get_suit_cards (e.hands p) s) := hc
    split_ifs at hc'
    · exact hc'
    · exact (List.mem_filter.1 hc').1

/-- Whatever card `choose_card` selects is in the active hand. -/
lemma choose_card_mem (e : Env) {a : Int} {r : Nat} {c : Nat} {v : Bool}
    (h : choose_card e a r = some (c, v)) : c ∈ e.hands e.active_player := by
  unfold choose_card at h
  by_cases hv : int_mem a (get_available_actions e e.active_player)
  · rw [if_pos hv] at h
    have := Option.some.inj h
    rw [Prod.mk.injEq] at this
    obtain ⟨c', hc', -, htn⟩ := int_mem_exists hv
    rw [← this.1, htn]
    exact get_available_actions_subset e _ c' hc'
  · rw [if_neg hv] at h
    by_cases hem : (get_available_actions e e.active_player).isEmpty
    · rw [if_pos hem] at h
      exact absurd h (by simp)
    · rw [if_neg hem] at h
      have := Option.some.inj h
      rw [Prod.mk.injEq] at this
      have hne : get_available_actions e e.active_player ≠ [] := by
        rcases hl : get_available_actions e e.active_player with _ | _
        · rw [hl] at hem
          exact absurd rfl hem
        · simp
      rw [← this.1]
      exact get_available_actions_subset e _ _ (getD_mod_mem r hne)

lemma sum_update_player {M : Type} [AddCommMonoid M] (F : Player → M) (a : Player) (b : M) :
    (∑ p : Player, Function.update F a b p) = b + ∑ p ∈ Finset.univ.erase a, F p := by
  rw [Finset.sum_update_of_mem (Finset.mem_univ a) F b, Finset.sdiff_singleton_eq_erase]

lemma sum_split_player {M : Type} [AddCommMonoid M] (F : Player → M) (a : Player) :
    (∑ p : Player, F p) = F a + ∑ p ∈ Finset.univ.erase a, F p :=
  (Finset.add_sum_erase _ F (Finset.mem_univ a)).symm

/-- Playing a card moves it from the active hand to the table: the total
multiset is unchanged. -/
lemma place_cardsM (e : Env) (c : Nat) (hc : c ∈ e.hands e.active_player) :
    cardsM (place_env e c) = cardsM e := by
  have hhf : (place_env e c).hands =
      Function.update e.hands e.active_player ((e.hands e.active_player).erase c) := rfl
  have htf : (place_env e c).table =
      Function.update e.table e.active_player (e.table e.active_player ++ [c]) := rfl
  have hhands : handsM (place_env e c) + {c} = handsM e := by
    have hpt : ∀ p, (((place_env e c).hands p : List Nat) : Multiset Nat) =
        Function.update (fun q => ((e.hands q : List Nat) : Multiset Nat)) e.active_player
          (((e.hands e.active_player).erase c : List Nat) : Multiset Nat) p := by
      intro p
      rw [hhf]
      by_cases hp : p = e.active_player
      · subst hp
        rw [Function.update_same, Function.update_same]
      · rw [Function.update_noteq hp, Function.update_noteq hp]
    unfold handsM
    rw [Finset.sum_congr rfl (fun p _ => hpt p), sum_update_player,
      sum_split_player (fun q => ((e.hands q : List Nat) : Multiset Nat)) e.active_player,
      ← erase_add_singleton (e.hands e.active_player) c hc]
    abel
  have htable : tableM (place_env e c) = tableM e + {c} := by
    have hpt : ∀ p, (((place_env e c).table p : List Nat) : Multiset Nat) =
        Function.update (fun q => ((e.table q : List Nat) : Multiset Nat)) e.active_player
          (((e.table e.active_player ++ [c] : List Nat) : List Nat) : Multiset Nat) p := by
      intro p
      rw [htf]
      by_cases hp : p = e.active_player
      · subst hp
        rw [Function.update_same, Function.update_same]
      · rw [Function.update_noteq hp, Function.update_noteq hp]
    have happ : (((e.table e.active_player ++ [c] : List Nat) : List Nat) : Multiset Nat) =
        ((e.table e.active_player : List Nat) : Multiset Nat) + {c} := by
      push_cast
      rfl
    unfold tableM
    rw [Finset.sum_congr rfl (fun p _ => hpt p), sum_update_player, happ,
      sum_split_player (fun q => ((e.table q : List Nat) : Multiset Nat)) e.active_player]
    abel
  have hplayed : playedM (place_env e c) = playedM e := rfl
  unfold cardsM
  rw [htable, hplayed, ← hhands]
  abel

/-- Playing a card decrements the total hand count. -/
lemma place_handsCount (e : Env) (c : Nat) (hc : c ∈ e.hands e.active_player) :
    handsCount (place_env e c) + 1 = handsCount e := by
  have hhf : (place_env e c).hands =
      Function.update e.hands e.active_player ((e.hands e.active_player).erase c) := rfl
  have hpt : ∀ p, ((place_env e c).hands p).length =
      Function.update (fun q => (e.hands q).length) e.active_player
        ((e.hands e.active_player).erase c).length p := by
    intro p
    rw [hhf]
    by_cases hp : p = e.active_player
    · subst hp
      rw [Function.update_same, Function.update_same]
    · rw [Function.update_noteq hp, Function.update_noteq hp]
  unfold handsCount
  rw [Finset.sum_congr rfl (fun p _ => hpt p), sum_update_player,
    sum_split_player (fun q => (e.hands q).length) e.active_player]
  have h1 := List.length_erase_of_mem hc
  have hpos : 0 < (e.hands e.active_player).length :=
    List.length_pos.2 (List.ne_nil_of_mem hc)
  omega

/-- Clearing the table moves each seat's (single) table card into the
current history slot: the total multiset is unchanged. -/
lemma clear_cardsM (e : Env) (htp : e.tricks_played < 13)
    (h1 : ∀ p, (e.table p).length = 1) :
    cardsM (clear_table e) = cardsM e := by
  have hsing : ∀ p, ∃ cp, e.table p = [cp] := fun p => List.length_eq_one.1 (h1 p)
  have hhands : handsM (clear_table e) = handsM e := rfl
  have htab : tableM (clear_table e) = 0 := by
    unfold tableM clear_table
    refine Finset.sum_eq_zero (fun p _ => ?_)
    obtain ⟨cp, hcp⟩ := hsing p
    show (((e.table p).dropLast : List Nat) : Multiset Nat) = 0
    rw [hcp]
    rfl
  have hterm : ∀ p, ((e.played_tricks e.tricks_played p ++ [(e.table p).getLastD 0] :
        List Nat) : Multiset Nat) =
      ((e.played_tricks e.tricks_played p : List Nat) : Multiset Nat) +
        ((e.table p : List Nat) : Multiset Nat) := by
    intro p
    obtain ⟨cp, hcp⟩ := hsing p
    rw [hcp]
    push_cast
    rfl
  have hslot : ∀ i, played_trickM (clear_table e) i =
      (if i = e.tricks_played then played_trickM e i + tableM e else played_trickM e i) := by
    intro i
    by_cases hi : i = e.tricks_played
    · subst hi
      rw [if_pos rfl]
      unfold played_trickM tableM clear_table
      rw [← Finset.sum_add_distrib]
      refine Finset.sum_congr rfl (fun p _ => ?_)
      show ((if e.tricks_played = e.tricks_played then
          e.played_tricks e.tricks_played p ++ [(e.table p).getLastD 0]
          else e.played_tricks e.tricks_played p : List Nat) : Multiset Nat) = _
      rw [if_pos rfl]
      exact hterm p
    · rw [if_neg hi]
      unfold played_trickM clear_table
      refine Finset.sum_congr rfl (fun p _ => ?_)
      show ((if i = e.tricks_played then e.played_tricks i p ++ [(e.table p).getLastD 0]
          else e.played_tricks i p : List Nat) : Multiset Nat) = _
      rw [if_neg hi]
  have hplayed : playedM (clear_table e) = playedM e + tableM e := by
    unfold playedM
    rw [Finset.sum_congr rfl (fun i _ => hslot i)]
    have hsplit : ∀ i ∈ Finset.range 13,
        (if i = e.tricks_played then played_trickM e i + tableM e else played_trickM e i) =
          played_trickM e i + (if i = e.tricks_played then tableM e else 0) := by
      intro i _
      split_ifs
      · rfl
      · rw [add_zero]
    rw [Finset.sum_congr rfl hsplit, Finset.sum_add_distrib, Finset.sum_ite_eq']
    rw [if_pos (Finset.mem_range.2 htp)]
  unfold cardsM
  rw [hhands, htab, hplayed]
  abel

lemma sum_player {M : Type} [AddCommMonoid M] (F : Player → M) :
    (∑ p : Player, F p) = F Player.N + F Player.E + F Player.S + F Player.W := by
  have huniv : (Finset.univ : Finset Player) =
      insert Player.N (insert Player.E (insert Player.S {Player.W})) := by decide
  rw [huniv, Finset.sum_insert (by decide), Finset.sum_insert (by decide),
    Finset.sum_insert (by decide), Finset.sum_singleton]
  simp [add_assoc]

/-- A freshly dealt random state satisfies the invariant. -/
lemma reset_random_inv (rm : RewardMode) (deck : List Nat) (d : Player)
    (trump : Option Nat) (cv : Nat) (hperm : List.Perm deck (List.range 52)) :
    EnvInv (reset_random rm deck d trump cv) := by
  have hlen : deck.length = 52 := by
    rw [hperm.length_eq, List.length_range]
  have hconcat : deck.take 13 ++ ((deck.drop 13).take 13 ++ ((deck.drop 26).take 13 ++
      deck.drop 39)) = deck := by
    have h39 : (deck.drop 26).drop 13 = deck.drop 39 := by
      rw [List.drop_drop]
    have h26 : (deck.drop 13).drop 13 = deck.drop 26 := by
      rw [List.drop_drop]
    rw [← h39, List.take_append_drop, ← h26, List.take_append_drop, List.take_append_drop]
  refine ⟨?_, by show (0 : Nat) < 4; decide, ⟨rfl, rfl, rfl, rfl⟩, ?_⟩
  · have htab : tableM (reset_random rm deck d trump cv) = 0 :=
      Finset.sum_eq_zero (fun p _ => rfl)
    have hpl : playedM (reset_random rm deck d trump cv) = 0 :=
      Finset.sum_eq_zero (fun i _ => Finset.sum_eq_zero (fun p _ => rfl))
    have hh : handsM (reset_random rm deck d trump cv) = (deck : Multiset Nat) := by
      unfold handsM
      rw [sum_player]
      have h1 : ∀ l : List Nat, ((sort_cards l : List Nat) : Multiset Nat) = (l : Multiset Nat) :=
        fun l => Quot.sound (sort_cards_perm l)
      show ((sort_cards (deck.take 13) : List Nat) : Multiset Nat) +
          ((sort_cards ((deck.drop 13).take 13) : List Nat) : Multiset Nat) +
          ((sort_cards ((deck.drop 26).take 13) : List Nat) : Multiset Nat) +
          ((sort_cards (deck.drop 39) : List Nat) : Multiset Nat) = (deck : Multiset Nat)
      rw [h1, h1, h1, h1, add_assoc, add_assoc, Multiset.coe_add, Multiset.coe_add,
        Multiset.coe_add, hconcat]
    unfold cardsM
    rw [htab, hpl, hh, add_zero, add_zero]
    exact Quot.sound hperm
  · unfold handsCount
    rw [sum_player]
    have h1 : ∀ l : List Nat, (sort_cards l).length = l.length :=
      fun l => (sort_cards_perm l).length_eq
    show (sort_cards (deck.take 13)).length + (sort_cards ((deck.drop 13).take 13)).length +
        (sort_cards ((deck.drop 26).take 13)).length + (sort_cards (deck.drop 39)).length +
        0 + 4 * 0 = 52
    rw [h1, h1, h1, h1]
    simp only [List.length_take, List.length_drop, hlen]
    omega

/-- The invariant survives a non-completing card play. -/
lemma inv_step_noresolve (e : Env) (c : Nat) (rew : Player → Int)
    (hc : c ∈ e.hands e.active_player)
    (hcards : cardsM e = (List.range 52 : Multiset Nat))
    (hshape : table_shape e)
    (hcount : handsCount e + e.n_cards_on_table + 4 * e.tricks_played = 52)
    (hlt : e.n_cards_on_table + 1 < 4) :
    EnvInv { (set_current_suit (place_env e c) c) with
             rewards := rew, active_player := next_player e.active_player } := by
  obtain ⟨hs0, hs1, hs2, hs3⟩ := hshape
  refine ⟨?_, ?_, ⟨?_, ?_, ?_, ?_⟩, ?_⟩
  · show cardsM (place_env e c) = (List.range 52 : Multiset Nat)
    rw [place_cardsM e c hc]
    exact hcards
  · show e.n_cards_on_table + 1 < 4
    exact hlt
  · show (Function.update e.table e.active_player (e.table e.active_player ++ [c])
        (next_player e.active_player)).length =
      if 0 < 4 - (e.n_cards_on_table + 1) then 0 else 1
    rw [Function.update_noteq (next_player_ne e.active_player), hs1]
    split_ifs <;> omega
  · show (Function.update e.table e.active_player (e.table e.active_player ++ [c])
        (next_player (next_player e.active_player))).length =
      if 1 < 4 - (e.n_cards_on_table + 1) then 0 else 1
    rw [Function.update_noteq (next_player_ne2 e.active_player), hs2]
    split_ifs <;> omega
  · show (Function.update e.table e.active_player (e.table e.active_player ++ [c])
        (next_player (next_player (next_player e.active_player)))).length =
      if 2 < 4 - (e.n_cards_on_table + 1) then 0 else 1
    rw [Function.update_noteq (next_player_ne3 e.active_player), hs3]
    split_ifs <;> omega
  · show (Function.update e.table e.active_player (e.table e.active_player ++ [c])
        (next_player (next_player (next_player (next_player e.active_player))))).length =
      if 3 < 4 - (e.n_cards_on_table + 1) then 0 else 1
    rw [next_player_four, Function.update_same, List.length_append, List.length_singleton,
      hs0]
    split_ifs <;> omega
  · show handsCount (place_env e c) + (e.n_cards_on_table + 1) + 4 * e.tricks_played = 52
    have hpc := place_handsCount e c hc
    omega

/-- Once the fourth card has been placed, every table pile holds exactly
one card. -/
lemma place_table_len_one (e : Env) (c : Nat) (hshape : table_shape e)
    (hn3 : e.n_cards_on_table = 3) :
    ∀ p, ((place_env e c).table p).length = 1 := by
  obtain ⟨hs0, hs1, hs2, hs3⟩ := hshape
  intro p
  rcases player_cases e.active_player p with h | h | h | h <;> subst h
  · show (Function.update e.table e.active_player (e.table e.active_player ++ [c])
        e.active_player).length = 1
    rw [Function.update_same, List.length_append, List.length_singleton, hs0,
      if_pos (by omega)]
  · show (Function.update e.table e.active_player (e.table e.active_player ++ [c])
        (next_player e.active_player)).length = 1
    rw [Function.update_noteq (next_player_ne e.active_player), hs1, if_neg (by omega)]
  · show (Function.update e.table e.active_player (e.table e.active_player ++ [c])
        (next_player (next_player e.active_player))).length = 1
    rw [Function.update_noteq (next_player_ne2 e.active_player), hs2, if_neg (by omega)]
  · show (Function.update e.table e.active_player (e.table e.active_player ++ [c])
        (next_player (next_player (next_player e.active_player)))).length = 1
    rw [Function.update_noteq (next_player_ne3 e.active_player), hs3, if_neg (by omega)]

/-- The invariant survives a trick-completing card play. -/
lemma inv_step_resolve (e : Env) (c : Nat) (rew : Player → Int) (tw : Player)
    (hc : c ∈ e.hands e.active_player)
    (hcards : cardsM e = (List.range 52 : Multiset Nat))
    (hshape : table_shape e)
    (hcount : handsCount e + e.n_cards_on_table + 4 * e.tricks_played = 52)
    (hn3 : e.n_cards_on_table = 3) :
    EnvInv { (resolve_trick (place_env e c)) with rewards := rew, active_player := tw } := by
  have h_at : ∀ p, ((place_env e c).table p).length = 1 :=
    place_table_len_one e c hshape hn3
  have hhc1 : 0 < (e.hands e.active_player).length :=
    List.length_pos.2 (List.ne_nil_of_mem hc)
  have hhcle : (e.hands e.active_player).length ≤ handsCount e := by
    have := Finset.single_le_sum (fun i _ => Nat.zero_le ((e.hands i).length))
      (Finset.mem_univ e.active_player)
    exact this
  have htp : (place_env e c).tricks_played < 13 := by
    show e.tricks_played < 13
    omega
  have hpc := place_handsCount e c hc
  refine ⟨?_, ?_, ⟨?_, ?_, ?_, ?_⟩, ?_⟩
  · show cardsM (clear_table (place_env e c)) = (List.range 52 : Multiset Nat)
    rw [clear_cardsM (place_env e c) htp h_at, place_cardsM e c hc]
    exact hcards
  · show (0 : Nat) < 4
    decide
  · show (((place_env e c).table tw).dropLast).length = if 0 < 4 - 0 then 0 else 1
    rw [List.length_dropLast, h_at tw, if_pos (by omega)]
  · show (((place_env e c).table (next_player tw)).dropLast).length =
        if 1 < 4 - 0 then 0 else 1
    rw [List.length_dropLast, h_at (next_player tw), if_pos (by omega)]
  · show (((place_env e c).table (next_player (next_player tw))).dropLast).length =
        if 2 < 4 - 0 then 0 else 1
    rw [List.length_dropLast, h_at (next_player (next_player tw)), if_pos (by omega)]
  · show (((place_env e c).table (next_player (next_player (next_player tw)))).dropLast).length
        = if 3 < 4 - 0 then 0 else 1
    rw [List.length_dropLast, h_at (next_player (next_player (next_player tw))),
      if_pos (by omega)]
  · show handsCount (place_env e c) + 0 + 4 * (e.tricks_played + 1) = 52
    omega

/-- A successfully completed step preserves the invariant. -/
lemma game_controller_inv (e : Env) (hinv : EnvInv e) (a : Int) (r : Nat)
    (hok : (game_controller e a r).2 = none) :
    EnvInv (game_controller e a r).1 := by
  obtain ⟨hcards, hn4, hshape, hcount⟩ := hinv
  rcases hch : choose_card e a r with _ | ⟨c, v⟩
  · have hgc : game_controller e a r = (e, some "IndexError") := by
      unfold game_controller
      rw [hch]
    rw [hgc] at hok
    exact absurd hok (by simp)
  · have hc := choose_card_mem e hch
    by_cases hlt : (place_env e c).n_cards_on_table < 4
    · rcases hrw : get_rewards_single (set_current_suit (place_env e c) c) none v with _ | rew
      · have hgc : game_controller e a r =
            (set_current_suit (place_env e c) c, some "KeyError") := by
          unfold game_controller
          simp only [hch]
          rw [if_pos hlt]
          simp only [hrw]
        rw [hgc] at hok
        exact absurd hok (by simp)
      · have hgc : game_controller e a r =
            ({ (set_current_suit (place_env e c) c) with
                rewards := rew, active_player := next_player e.active_player }, none) := by
          unfold game_controller
          simp only [hch]
          rw [if_pos hlt]
          simp only [hrw]
        rw [hgc]
        exact inv_step_noresolve e c rew hc hcards hshape hcount hlt
    · rcases hrw : get_rewards_single (resolve_trick (place_env e c))
          (some (get_trick_winner (place_env e c).table (place_env e c).current_suit
            (place_env e c).trump)) v with _ | rew
      · have hgc : game_controller e a r =
            (resolve_trick (place_env e c), some "KeyError") := by
          unfold game_controller
          simp only [hch]
          rw [if_neg hlt]
          simp only [hrw]
        rw [hgc] at hok
        exact absurd hok (by simp)
      · have hgc : game_controller e a r =
            ({ (resolve_trick (place_env e c)) with
                rewards := rew,
                active_player := get_trick_winner (place_env e c).table
                  (place_env e c).current_suit (place_env e c).trump }, none) := by
          unfold game_controller
          simp only [hch]
          rw [if_neg hlt]
          simp only [hrw]
        rw [hgc]
        have hn3 : e.n_cards_on_table = 3 := by
          have h4 : ¬ (e.n_cards_on_table + 1 < 4) := hlt
          omega
        exact inv_step_resolve e c rew _ hc hcards hshape hcount hn3

/-- Every reachable state satisfies the invariant. -/
lemma reachable_inv (e : Env) (h : Reachable e) : EnvInv e := by
  induction h with
  | init rm deck d trump cv hperm => exact reset_random_inv rm deck d trump cv hperm
  | step e a r _ hok ih => exact game_controller_inv e ih a r hok

/-- The opening state of a standard deal used to instantiate the
partition invariant. -/
def c3_e0 : Env := reset_random RewardMode.play_cards test_deck Player.N none 1

/-- Three non-raising controller steps into the first trick: E, S and W
have each placed a card, so the table holds three cards and N is to play. -/
def c3_e3 : Env :=
  (game_controller (game_controller (game_controller c3_e0 1 0).1 2 0).1 3 0).1

/-- C3: in every state reachable from a standard random deal by
non-raising steps, the 52 distinct cards are partitioned without overlap
or omission across the four hands, the table piles and the played-tricks
history (their multiset union is exactly `List.range 52`); every card the
controller accepts moves exactly that one card from the active seat's
hand to that seat's table pile, leaving every other hand, pile and the
history untouched; and when the placement completes a trick, each of the
four one-card table piles is appended to the history slot of the current
trick and the table is emptied. -/
theorem card_partition_invariant (e : Env) (he : Reachable e) :
    cardsM e = (List.range 52 : Multiset Nat) ∧
    (∀ a r c v, choose_card e a r = some (c, v) →
        c ∈ e.hands e.active_player ∧
        (place_env e c).hands e.active_player = (e.hands e.active_player).erase c ∧
        (∀ p, p ≠ e.active_player → (place_env e c).hands p = e.hands p) ∧
        (place_env e c).table e.active_player = e.table e.active_player ++ [c] ∧
        (∀ p, p ≠ e.active_player → (place_env e c).table p = e.table p) ∧
        (place_env e c).played_tricks = e.played_tricks ∧
        (place_env e c).n_cards_on_table = e.n_cards_on_table + 1) ∧
    (∀ a r c v, choose_card e a r = some (c, v) →
        (place_env e c).n_cards_on_table = 4 →
        ∀ p, ((place_env e c).table p).length = 1 ∧
          (clear_table (place_env e c)).played_tricks e.tricks_played p =
            e.played_tricks e.tricks_played p ++ [((place_env e c).table p).getLastD 0] ∧
          (clear_table (place_env e c)).table p = [] ∧
          (clear_table (place_env e c)).n_cards_on_table = 0) := by
  obtain ⟨hcards, hn4, hshape, hcount⟩ := reachable_inv e he
  refine ⟨hcards, ?_, ?_⟩
  · intro a r c v hch
    refine ⟨choose_card_mem e hch, Function.update_same _ _ _,
      fun p hp => Function.update_noteq hp _ _,
      Function.update_same _ _ _,
      fun p hp => Function.update_noteq hp _ _, rfl, rfl⟩
  · intro a r c v hch h4 p
    have hn3 : e.n_cards_on_table = 3 := by
      have h4' : e.n_cards_on_table + 1 = 4 := h4
      omega
    have h_at := place_table_len_one e c hshape hn3
    refine ⟨h_at p, ?_, ?_, rfl⟩
    · show (if e.tricks_played = (place_env e c).tricks_played then
          (place_env e c).played_tricks e.tricks_played p ++
            [((place_env e c).table p).getLastD 0]
        else (place_env e c).played_tricks e.tricks_played p) =
        e.played_tricks e.tricks_played p ++ [((place_env e c).table p).getLastD 0]
      rw [if_pos (show e.tricks_played = (place_env e c).tricks_played from rfl)]
      rfl
    · show ((place_env e c).table p).dropLast = []
      obtain ⟨x, hx⟩ := List.length_eq_one.1 (h_at p)
      rw [hx]
      rfl

/-- Concrete check of the partition invariant: the fresh deal partitions
the deck; accepting card 13 moves it from E's hand to E's table pile;
and after the fourth card of the trick lands, E's one-card pile is
cleared from the table. -/
theorem card_partition_invariant_witness :
    cardsM c3_e0 = (List.range 52 : Multiset Nat) ∧
    ((place_env c3_e0 13).hands c3_e0.active_player =
        (c3_e0.hands c3_e0.active_player).erase 13 ∧
      (place_env c3_e0 13).table c3_e0.active_player =
        c3_e0.table c3_e0.active_player ++ [13]) ∧
    (((place_env c3_e3 0).table Player.E).length = 1 ∧
      (clear_table (place_env c3_e3 0)).table Player.E = []) := by
  have h0 : Reachable c3_e0 :=
    Reachable.init RewardMode.play_cards test_deck Player.N none 1 (by decide)
  have h3 : Reachable c3_e3 :=
    Reachable.step _ 3 0
      (Reachable.step _ 2 0 (Reachable.step _ 1 0 h0 (by decide)) (by decide))
      (by decide)
  refine ⟨(card_partition_invariant c3_e0 h0).1, ?_, ?_⟩
  · have h2 := (card_partition_invariant c3_e0 h0).2.1 13 0 13 true (by decide)
    exact ⟨h2.2.1, h2.2.2.2.1⟩
  · have h3c := (card_partition_invariant c3_e3 h3).2.2 0 0 0 true (by decide)
      (by decide) Player.E
    exact ⟨h3c.1, h3c.2.2.1⟩
